import Mathlib

/-!
# MakeIteratorFromInputElement (tensorflow/core/kernels/dataset_utils.cc)

A shallow embedding of `tensorflow::dataset::MakeIteratorFromInputElement`.
The function is an orchestration of external collaborators (the captured
function, its resource manager, the looked-up dataset, the scoped step
container).  The collaborators are parameters of the embedding; every call the
function makes to one of them is appended to an event trace, together with the
outcome the collaborator reported, so that ordering properties can be stated.
-/

set_option autoImplicit false

namespace tensorflow

/-! ## Status values -/

/-- Error codes of `tensorflow::error::Code`, without `OK`. -/
inductive Code where
  | CANCELLED
  | UNKNOWN
  | INVALID_ARGUMENT
  | DEADLINE_EXCEEDED
  | NOT_FOUND
  | ALREADY_EXISTS
  | PERMISSION_DENIED
  | UNAUTHENTICATED
  | RESOURCE_EXHAUSTED
  | FAILED_PRECONDITION
  | ABORTED
  | OUT_OF_RANGE
  | UNIMPLEMENTED
  | INTERNAL
  | UNAVAILABLE
  | DATA_LOSS
  deriving DecidableEq, Repr

/-- A non-OK status: a machine-checkable kind and a human-readable message. -/
structure Failure where
  code : Code
  message : String
  deriving DecidableEq, Repr

/-- The type `tensorflow::Status`: either OK or a failure. -/
inductive Status where
  | OK
  | error (f : Failure)
  deriving DecidableEq, Repr

/-- The constructor `errors::InvalidArgument(msg)`. -/
def errors.InvalidArgument (msg : String) : Status :=
  Status.error ⟨Code.INVALID_ARGUMENT, msg⟩

/-- The constructor `errors::NotFound(msg)`. -/
def errors.NotFound (msg : String) : Failure :=
  ⟨Code.NOT_FOUND, msg⟩

/-! ## Tensors and resource handles -/

/-- The enum `DataType`, by its numeric value. -/
abbrev DataType := Nat

/-- The enumerator `DT_RESOURCE` (value 20 in types.proto). -/
def DT_RESOURCE : DataType := 20

/-- The enumerator `DT_INT64` (value 9 in types.proto). -/
def DT_INT64 : DataType := 9

/-- A `ResourceHandle`: container, name and the hash code of the resource type. -/
structure ResourceHandle where
  container : String
  name : String
  hash_code : Nat
  deriving DecidableEq, Repr

/-- A `TensorShape`: the list of dimension sizes. -/
abbrev TensorShape := List Nat

/-- The test `TensorShapeUtils::IsScalar(shape)`: the shape has no dimension. -/
def TensorShapeUtils.IsScalar (shape : TensorShape) : Bool :=
  shape.length == 0

/-- A `Tensor`: element kind, shape and flat buffer.  `resources` is the buffer
viewed as `ResourceHandle` elements; a tensor of kind `DT_RESOURCE` holds as
many of them as its shape has elements (the class invariant that makes
`scalar<ResourceHandle>()` defined on a scalar resource tensor).  `ints` is
the buffer of an integer tensor. -/
structure Tensor where
  dtype : DataType
  shape : TensorShape
  resources : List ResourceHandle
  ints : List Int
  inv : dtype = DT_RESOURCE → resources.length = shape.prod

/-- The accessor `t.scalar<ResourceHandle>()()` on a scalar `DT_RESOURCE` tensor. -/
def Tensor.scalar_ResourceHandle (t : Tensor) (hd : t.dtype = DT_RESOURCE)
    (hs : TensorShapeUtils.IsScalar t.shape = true) : ResourceHandle :=
  t.resources.get ⟨0, by
    have h := t.inv hd
    have h0 : t.shape = [] := by
      simpa [TensorShapeUtils.IsScalar] using hs
    rw [h0] at h
    simp at h
    omega⟩

/-! ## Datasets and iterators -/

/-- An `IteratorBase`: the diagnostic label it was built with and the elements
it will produce. -/
structure IteratorBase where
  label : String
  elements : List Int
  deriving DecidableEq, Repr

/-- A `DatasetBase`: its virtual `MakeIterator(prefix)` method. -/
structure DatasetBase where
  MakeIterator : String → IteratorBase

/-! ## Step identifiers and the scoped step container -/

/-- The value of a 64-bit word read as a two's-complement signed integer. -/
def wrap_int64 (w : Nat) : Int :=
  if w % 2 ^ 64 < 2 ^ 63 then ((w % 2 ^ 64 : Nat) : Int)
  else ((w % 2 ^ 64 : Nat) : Int) - 2 ^ 64

/-- Modelled from the spec: `CapturedFunction::generate_step_id` is declared
outside this file.  The spec asks for an allocator that draws from the strictly
negative 64-bit signed integers (the sign bit is the reserved range), backed by
a sufficiently wide random draw; `r` is the random word drawn, whose low 63
bits are kept under a set sign bit. -/
def CapturedFunction.generate_step_id (r : Nat) : Int :=
  wrap_int64 (2 ^ 63 + r % 2 ^ 63)

/-- Modelled from the comment at the call site: a DirectSession step identifier,
the n-th value of a contiguous counter starting from 0. -/
def DirectSession.step_id (n : Nat) : Int := (n : Int)

/-- Modelled from the comment at the call site: a MasterSession step identifier,
a 56-bit random value, so that the most significant bit of the 64-bit word is 0. -/
def MasterSession.step_id (r : Nat) : Int := ((r % 2 ^ 56 : Nat) : Int)

/-- Modelled from the spec: `ScopedStepContainer` is declared outside this
file.  It is bound to a step identifier and associates with the resource names
registered under the step during its lifetime. -/
structure ScopedStepContainer where
  step_id : Int
  names : List String
  deriving DecidableEq, Repr

/-- Modelled from the spec: construction of a `ScopedStepContainer` for a step;
no resource name is registered yet. -/
def ScopedStepContainer.create (step_id : Int) : ScopedStepContainer :=
  ⟨step_id, []⟩

/-- Modelled from the spec: registering a resource name under the step.  A name
already registered stays registered once. -/
def ScopedStepContainer.register (c : ScopedStepContainer) (name : String) :
    ScopedStepContainer :=
  if name ∈ c.names then c else ⟨c.step_id, c.names ++ [name]⟩

/-- Modelled from the spec: the destructor of `ScopedStepContainer` invokes the
cleanup callback for every resource name registered under the step. -/
def ScopedStepContainer.destroy {S : Type} (c : ScopedStepContainer)
    (cleanup : String → S → S) (s : S) : S :=
  c.names.foldl (fun acc name => cleanup name acc) s

/-! ## Collaborators -/

/-- An `IteratorContext`: the work-dispatch handle it carries. -/
structure IteratorContext where
  runner : Nat
  deriving DecidableEq, Repr

/-- The options bundle `FunctionLibraryRuntime::Options`; `step_container` is
the container the pointer refers to, `none` for a null pointer. -/
structure FunctionLibraryRuntimeOptions where
  runner : Option Nat
  step_id : Int
  step_container : Option ScopedStepContainer
  deriving DecidableEq, Repr

/-- The resource manager reached through `captured_func->resource_manager()`,
over an arbitrary registry state `σ`: typed lookup and typed deletion of a
dataset by (container, name), and cleanup of a container. -/
structure ResourceMgr (σ : Type) where
  Lookup : String → String → σ → Except Failure DatasetBase × σ
  Delete : String → String → σ → Status × σ
  Cleanup : String → σ → Status × σ

/-- What one call of `CapturedFunction::Run` does: the status and return values,
the resource names the function registered under the step container it was
given, and the registry state it leaves. -/
structure RunOutcome (σ : Type) where
  result : Except Failure (List Tensor)
  registered : List String
  mgr : σ

/-- A `CapturedFunction`: its `Run` method and its resource manager. -/
structure CapturedFunction (σ : Type) where
  Run : FunctionLibraryRuntimeOptions → List Tensor → σ → RunOutcome σ
  resource_manager : ResourceMgr σ

/-- Process-wide values the function reads: the hash code of
`MakeTypeIndex<DatasetBase>()` and the random word consumed by
`generate_step_id`. -/
structure Runtime where
  dataset_hash_code : Nat
  random_word : Nat
  deriving DecidableEq, Repr

/-! ## Event trace -/

/-- One observable action of the operation, with the outcome reported. -/
inductive Event where
  | Run (opts : FunctionLibraryRuntimeOptions) (result : Except Failure (List Tensor))
  | Access (i : Nat)
  | Lookup (container name : String) (result : Except Failure DatasetBase)
  | MakeIterator (label : String)
  | Delete (container name : String) (result : Status)
  | Unref
  | Cleanup (name : String) (result : Status)

/-- Whether the event is a call of `Run`. -/
def Event.isRun : Event → Bool
  | Event.Run _ _ => true
  | _ => false

/-- Whether the event is an access `return_values[i]`. -/
def Event.isAccess : Event → Bool
  | Event.Access _ => true
  | _ => false

/-- Whether the event is a registry `Lookup`. -/
def Event.isLookup : Event → Bool
  | Event.Lookup _ _ _ => true
  | _ => false

/-- Whether the event is a call of the dataset's `MakeIterator`. -/
def Event.isMakeIterator : Event → Bool
  | Event.MakeIterator _ => true
  | _ => false

/-- Whether the event is a registry `Delete`. -/
def Event.isDelete : Event → Bool
  | Event.Delete _ _ _ => true
  | _ => false

/-- Whether the event is a registry `Cleanup`. -/
def Event.isCleanup : Event → Bool
  | Event.Cleanup _ _ => true
  | _ => false

/-- Whether the event is a collaborator call of one of the protocol steps:
function run, registry lookup, iterator construction, registry delete. -/
def Event.isStep : Event → Bool
  | Event.Run _ _ => true
  | Event.Lookup _ _ _ => true
  | Event.MakeIterator _ => true
  | Event.Delete _ _ _ => true
  | _ => false

/-- The names for which the trace records a `Cleanup` call, in order. -/
def cleanup_names : List Event → List String
  | [] => []
  | Event.Cleanup name _ :: es => name :: cleanup_names es
  | _ :: es => cleanup_names es

/-! ## String concatenation -/

/-- An argument of `strings::StrCat`: a string piece or a 64-bit integer. -/
inductive AlphaNum where
  | piece (s : String)
  | int64 (i : Int)

/-- Modelled from the spec: the decimal rendering used by `strings::StrCat`, the
decimal digits of a natural number, most significant first. -/
def decimal_digits (n : Nat) : List Char :=
  if _h : n < 10 then [Nat.digitChar n]
  else decimal_digits (n / 10) ++ [Nat.digitChar (n % 10)]
termination_by n
decreasing_by omega

/-- Modelled from the spec: `strings::StrCat` is declared outside this file; it
renders an integer argument in decimal, with a leading minus sign when it is
negative. -/
def AlphaNum.render : AlphaNum → List Char
  | AlphaNum.piece s => s.data
  | AlphaNum.int64 i =>
    if i < 0 then '-' :: decimal_digits (-i).toNat else decimal_digits i.toNat

/-- Modelled from the spec: `strings::StrCat(args...)` is the concatenation of
the renderings of its arguments. -/
def strings.StrCat (args : List AlphaNum) : String :=
  String.mk (args.map AlphaNum.render).flatten

/-- The number a list of decimal digit characters denotes. -/
def decimal_value (cs : List Char) : Nat :=
  cs.foldl (fun acc c => 10 * acc + (c.toNat - 48)) 0

/-! ## The operation -/

/-- The mutable state the operation works on: the registry state behind the
resource manager, the caller's output slot `*out_iterator` (`none` for a null
pointer), and the events so far. -/
structure Frame (σ : Type) where
  mgr : σ
  out_iterator : Option IteratorBase
  trace : List Event

/-- The closure given to the step container (lines 35-37): it calls `Cleanup`
on the resource manager and ignores the status (`IgnoreError`). -/
def cleanup_callback {σ : Type} (captured_func : CapturedFunction σ) (name : String)
    (fr : Frame σ) : Frame σ :=
  let r := captured_func.resource_manager.Cleanup name fr.mgr
  ⟨r.2, fr.out_iterator, fr.trace ++ [Event.Cleanup name r.1]⟩

/-- The options passed to `Run` (lines 26-38): the runner of the context, a
generated step identifier, and a fresh step container for that identifier. -/
def run_options (rt : Runtime) (ctx : IteratorContext) : FunctionLibraryRuntimeOptions :=
  let step_id := CapturedFunction.generate_step_id rt.random_word
  ⟨some ctx.runner, step_id, some (ScopedStepContainer.create step_id)⟩

/-- The label given to `MakeIterator` (line 70). -/
def iterator_label (pfx : String) (thread_index : Int) : String :=
  strings.StrCat [AlphaNum.piece pfx, AlphaNum.piece "[", AlphaNum.int64 thread_index,
    AlphaNum.piece "]"]

/-- Lines 53-73 of `MakeIteratorFromInputElement`, entered with the handle
`dataset_resource` read on lines 50-51: the type-tag check, the registry
lookup, the construction of the iterator and the registry delete, followed by
the release of the looked-up reference (`core::ScopedUnref`) when the lookup
succeeded. -/
def MakeIteratorFromInputElement.handoff {σ : Type} (rt : Runtime) (thread_index : Int)
    (captured_func : CapturedFunction σ) (pfx : String) (dataset_resource : ResourceHandle)
    (fr : Frame σ) : Status × Frame σ :=
  if rt.dataset_hash_code ≠ dataset_resource.hash_code then
    (errors.InvalidArgument "Function must return a Dataset resource.", fr)
  else
    match captured_func.resource_manager.Lookup dataset_resource.container
        dataset_resource.name fr.mgr with
    | (Except.error f, m) =>
      (Status.error f, ⟨m, fr.out_iterator,
        fr.trace ++ [Event.Lookup dataset_resource.container dataset_resource.name
          (Except.error f)]⟩)
    | (Except.ok returned_dataset, m) =>
      let label := iterator_label pfx thread_index
      let it := returned_dataset.MakeIterator label
      let del := captured_func.resource_manager.Delete dataset_resource.container
        dataset_resource.name m
      let tr := fr.trace ++ [Event.Lookup dataset_resource.container
        dataset_resource.name (Except.ok returned_dataset),
        Event.MakeIterator label,
        Event.Delete dataset_resource.container dataset_resource.name del.1,
        Event.Unref]
      match del.1 with
      | Status.error f => (Status.error f, ⟨del.2, some it, tr⟩)
      | Status.OK => (Status.OK, ⟨del.2, some it, tr⟩)

/-- The function `MakeIteratorFromInputElement` (lines 22-74).  `out_iterator`
is the content of the output slot before the call and `mgr` the registry state
before the call; the result is the returned status with the final state.  The
destructor of the step container runs on every return. -/
def MakeIteratorFromInputElement {σ : Type} (rt : Runtime) (ctx : IteratorContext)
    (input_element : List Tensor) (thread_index : Int) (captured_func : CapturedFunction σ)
    (pfx : String) (out_iterator : Option IteratorBase) (mgr : σ) : Status × Frame σ :=
  let opts := run_options rt ctx
  let step_container := ScopedStepContainer.create opts.step_id
  let run := captured_func.Run opts input_element mgr
  let step_container := run.registered.foldl ScopedStepContainer.register step_container
  let fr : Frame σ := ⟨run.mgr, out_iterator, [Event.Run opts run.result]⟩
  let invalid : Status :=
    errors.InvalidArgument "Function must return a single scalar of dtype DT_RESOURCE."
  let body : Status × Frame σ :=
    match run.result with
    | Except.error f => (Status.error f, fr)
    | Except.ok return_values =>
      if h1 : return_values.length = 1 then
        if h2 : (return_values.get ⟨0, by omega⟩).dtype = DT_RESOURCE then
          if h3 : TensorShapeUtils.IsScalar (return_values.get ⟨0, by omega⟩).shape = true then
            let dataset_resource :=
              (return_values.get ⟨0, by omega⟩).scalar_ResourceHandle h2 h3
            MakeIteratorFromInputElement.handoff rt thread_index captured_func pfx
              dataset_resource
              ⟨fr.mgr, fr.out_iterator,
                fr.trace ++ [Event.Access 0, Event.Access 0, Event.Access 0]⟩
          else (invalid, ⟨fr.mgr, fr.out_iterator, fr.trace ++ [Event.Access 0, Event.Access 0]⟩)
        else (invalid, ⟨fr.mgr, fr.out_iterator, fr.trace ++ [Event.Access 0]⟩)
      else (invalid, fr)
  (body.1, step_container.destroy (cleanup_callback captured_func) body.2)

/-! ## Auxiliary definitions for the statements -/

/-- The returned value set is exactly one value of kind `DT_RESOURCE` with
scalar shape (the condition tested on lines 42-43). -/
def single_scalar_resource (return_values : List Tensor) : Bool :=
  match return_values with
  | [t] => decide (t.dtype = DT_RESOURCE) && TensorShapeUtils.IsScalar t.shape
  | _ => false

/-- The registry state after the `Cleanup` calls for the given names, in order. -/
def teardown_mgr {σ : Type} (rm : ResourceMgr σ) : List String → σ → σ
  | [], m => m
  | name :: names, m => teardown_mgr rm names (rm.Cleanup name m).2

/-- The events of the `Cleanup` calls for the given names, in order. -/
def teardown_events {σ : Type} (rm : ResourceMgr σ) : List String → σ → List Event
  | [], _ => []
  | name :: names, m =>
    Event.Cleanup name (rm.Cleanup name m).1 :: teardown_events rm names (rm.Cleanup name m).2

/-- The names held by the step container once the function has registered the
given names, in order. -/
def registered_names (step_id : Int) (registered : List String) : List String :=
  (registered.foldl ScopedStepContainer.register (ScopedStepContainer.create step_id)).names

/-- The names the step container of one call holds when it is destroyed. -/
def step_names {σ : Type} (rt : Runtime) (ctx : IteratorContext) (input_element : List Tensor)
    (cf : CapturedFunction σ) (mgr : σ) : List String :=
  registered_names (run_options rt ctx).step_id
    (cf.Run (run_options rt ctx) input_element mgr).registered

/-- The outcome of the call of `Run` made by one invocation of the operation. -/
def run_outcome {σ : Type} (rt : Runtime) (ctx : IteratorContext) (input_element : List Tensor)
    (cf : CapturedFunction σ) (mgr : σ) : RunOutcome σ :=
  cf.Run (run_options rt ctx) input_element mgr

/-! ## A keyed registry -/

/-- Modelled from the spec: the resource registry is declared outside this
file.  An entry of the process-wide keyed store: the (container, name) key, the
type tag of the stored object, and the dataset object. -/
structure RegistryEntry where
  container : String
  name : String
  hash_code : Nat
  dataset : DatasetBase

/-- Modelled from the spec: the registry, a keyed store of typed entries. -/
abbrev Registry := List RegistryEntry

/-- Whether the entry is the one of the given type tag and (container, name) key. -/
def RegistryEntry.is_entry (e : RegistryEntry) (hash : Nat) (container name : String) : Bool :=
  e.container == container && e.name == name && e.hash_code == hash

/-- The not-found failure of the registry for a (container, name) key. -/
def Registry.not_found (container name : String) : Failure :=
  errors.NotFound ("Resource " ++ container ++ "/" ++ name ++ " does not exist.")

/-- Modelled from the spec: typed lookup by (container, name); not-found when
the registry has no such entry. -/
def Registry.Lookup (hash : Nat) (container name : String) (reg : Registry) :
    Except Failure DatasetBase :=
  match reg.find? (fun e => e.is_entry hash container name) with
  | some e => Except.ok e.dataset
  | none => Except.error (Registry.not_found container name)

/-- Modelled from the spec: typed deletion by (container, name); not-found when
the registry has no such entry, otherwise the entry is removed. -/
def Registry.Delete (hash : Nat) (container name : String) (reg : Registry) :
    Status × Registry :=
  if reg.any (fun e => e.is_entry hash container name) then
    (Status.OK, reg.filter (fun e => !e.is_entry hash container name))
  else (Status.error (Registry.not_found container name), reg)

/-- Modelled from the spec: cleanup of a container removes every entry
registered under that container name. -/
def Registry.Cleanup (container : String) (reg : Registry) : Status × Registry :=
  (Status.OK, reg.filter (fun e => e.container != container))

/-- Modelled from the spec: insertion of a dataset under a (container, name) key. -/
def Registry.Create (hash : Nat) (container name : String) (d : DatasetBase)
    (reg : Registry) : Registry :=
  reg ++ [⟨container, name, hash, d⟩]

/-- The resource manager over the keyed registry, for datasets of type tag `hash`. -/
def Registry.resource_manager (hash : Nat) : ResourceMgr Registry :=
  ⟨fun container name reg => (Registry.Lookup hash container name reg, reg),
    Registry.Delete hash, Registry.Cleanup⟩

/-! ## Concrete scenarios -/

/-- A scalar `DT_RESOURCE` tensor holding one handle. -/
def Tensor.of_handle (h : ResourceHandle) : Tensor :=
  ⟨DT_RESOURCE, [], [h], [], fun _ => rfl⟩

/-- A scalar `DT_INT64` tensor holding one value. -/
def Tensor.of_int64 (v : Int) : Tensor :=
  ⟨DT_INT64, [], [], [v], by decide⟩

/-- A `DT_RESOURCE` tensor of shape [2] holding two handles. -/
def Tensor.of_handles2 (h1 h2 : ResourceHandle) : Tensor :=
  ⟨DT_RESOURCE, [2], [h1, h2], [], fun _ => rfl⟩

/-- The runtime of the scenarios: dataset type tag 7, random word 5. -/
def scenario_rt : Runtime := ⟨7, 5⟩

/-- The iterator context of the scenarios. -/
def scenario_ctx : IteratorContext := ⟨1⟩

/-- A dataset producing the elements 10, 20, 30. -/
def scenario_dataset : DatasetBase := ⟨fun label => ⟨label, [10, 20, 30]⟩⟩

/-- The handle (container "c", name "ds1") with the dataset type tag. -/
def scenario_handle : ResourceHandle := ⟨"c", "ds1", 7⟩

/-- A handle (container "c", name "ds1") with another type tag. -/
def scenario_wrong_tag_handle : ResourceHandle := ⟨"c", "ds1", 8⟩

/-- A resource manager stub without state whose calls all succeed. -/
def stub_resource_manager : ResourceMgr Unit :=
  ⟨fun _ _ m => (Except.ok scenario_dataset, m), fun _ _ m => (Status.OK, m),
    fun _ m => (Status.OK, m)⟩

/-- A resource manager stub whose lookup succeeds and whose delete reports
not-found, as when the entry is removed by another actor in between. -/
def delete_fails_resource_manager : ResourceMgr Unit :=
  ⟨fun _ _ m => (Except.ok scenario_dataset, m),
    fun container name m => (Status.error (Registry.not_found container name), m),
    fun _ m => (Status.OK, m)⟩

/-- A captured function returning the given values and registering the given
names, leaving the registry state as it is. -/
def returning {σ : Type} (rv : List Tensor) (names : List String) (rm : ResourceMgr σ) :
    CapturedFunction σ :=
  ⟨fun _ _ m => ⟨Except.ok rv, names, m⟩, rm⟩

/-- A captured function that creates the scenario dataset under ("c", "ds1") in
the keyed registry, registers the name "tmp" under the step, and returns the
handle of the dataset. -/
def scenario_function : CapturedFunction Registry :=
  ⟨fun _ _ reg =>
    ⟨Except.ok [Tensor.of_handle scenario_handle], ["tmp"],
      Registry.Create 7 "c" "ds1" scenario_dataset reg⟩,
    Registry.resource_manager 7⟩

/-! ## Lemmas on the step container -/

theorem single_scalar_resource_iff (rv : List Tensor) :
    single_scalar_resource rv = true ↔
      ∃ t : Tensor, rv = [t] ∧ t.dtype = DT_RESOURCE ∧
        TensorShapeUtils.IsScalar t.shape = true := by
  match rv with
  | [] => simp [single_scalar_resource]
  | [t] => simp [single_scalar_resource]
  | t :: t2 :: ts => simp [single_scalar_resource]


theorem destroy_cleanup_callback {σ : Type} (cf : CapturedFunction σ) (names : List String)
    (step_id : Int) (fr : Frame σ) :
    ScopedStepContainer.destroy ⟨step_id, names⟩ (cleanup_callback cf) fr =
      ⟨teardown_mgr cf.resource_manager names fr.mgr, fr.out_iterator,
        fr.trace ++ teardown_events cf.resource_manager names fr.mgr⟩ := by
  induction names generalizing fr with
  | nil => simp [ScopedStepContainer.destroy, teardown_mgr, teardown_events]
  | cons n ns ih =>
    have h := ih (cleanup_callback cf n fr)
    simp only [ScopedStepContainer.destroy, List.foldl_cons] at h ⊢
    rw [h]
    simp [cleanup_callback, teardown_mgr, teardown_events]

theorem destroy_eq {σ : Type} (cf : CapturedFunction σ) (c : ScopedStepContainer)
    (fr : Frame σ) :
    c.destroy (cleanup_callback cf) fr =
      ⟨teardown_mgr cf.resource_manager c.names fr.mgr, fr.out_iterator,
        fr.trace ++ teardown_events cf.resource_manager c.names fr.mgr⟩ := by
  cases c with
  | mk step_id names => exact destroy_cleanup_callback cf names step_id fr

theorem teardown_events_isCleanup {σ : Type} (rm : ResourceMgr σ) (names : List String) (m : σ) :
    ∀ e ∈ teardown_events rm names m, e.isCleanup = true := by
  induction names generalizing m with
  | nil => simp [teardown_events]
  | cons n ns ih =>
    intro e he
    simp only [teardown_events, List.mem_cons] at he
    rcases he with he | he
    · subst he; rfl
    · exact ih _ e he

theorem cleanup_names_teardown_events {σ : Type} (rm : ResourceMgr σ) (names : List String)
    (m : σ) : cleanup_names (teardown_events rm names m) = names := by
  induction names generalizing m with
  | nil => simp [teardown_events, cleanup_names]
  | cons n ns ih => simp [teardown_events, cleanup_names, ih]

theorem register_fold_names (l : List String) (c : ScopedStepContainer) (hc : c.names.Nodup) :
    (l.foldl ScopedStepContainer.register c).names.Nodup ∧
      ∀ n, n ∈ (l.foldl ScopedStepContainer.register c).names ↔ n ∈ c.names ∨ n ∈ l := by
  induction l generalizing c with
  | nil => simp [hc]
  | cons a l ih =>
    simp only [List.foldl_cons]
    by_cases ha : a ∈ c.names
    · have hr : c.register a = c := by simp [ScopedStepContainer.register, ha]
      rw [hr]
      refine ⟨(ih c hc).1, fun n => ?_⟩
      rw [(ih c hc).2 n]
      simp only [List.mem_cons]
      constructor
      · rintro (h | h)
        · exact Or.inl h
        · exact Or.inr (Or.inr h)
      · rintro (h | h | h)
        · exact Or.inl h
        · exact Or.inl (h ▸ ha)
        · exact Or.inr h
    · have hr : c.register a = ⟨c.step_id, c.names ++ [a]⟩ := by
        simp [ScopedStepContainer.register, ha]
      rw [hr]
      have hnd : (c.names ++ [a]).Nodup := by
        rw [List.nodup_append]
        refine ⟨hc, by simp, ?_⟩
        intro x hx hx2
        simp only [List.mem_singleton] at hx2
        exact ha (hx2 ▸ hx)
      refine ⟨(ih ⟨c.step_id, c.names ++ [a]⟩ hnd).1, fun n => ?_⟩
      rw [(ih ⟨c.step_id, c.names ++ [a]⟩ hnd).2 n]
      simp only [List.mem_append, List.mem_singleton, List.mem_cons]
      tauto

theorem registered_names_nodup (step_id : Int) (l : List String) :
    (registered_names step_id l).Nodup :=
  (register_fold_names l (ScopedStepContainer.create step_id)
    (by simp [ScopedStepContainer.create])).1

theorem mem_registered_names (step_id : Int) (l : List String) (n : String) :
    n ∈ registered_names step_id l ↔ n ∈ l := by
  have h := (register_fold_names l (ScopedStepContainer.create step_id)
    (by simp [ScopedStepContainer.create])).2 n
  simpa [registered_names, ScopedStepContainer.create] using h

theorem isCleanup_classes (e : Event) (h : e.isCleanup = true) :
    e.isStep = false ∧ e.isRun = false ∧ e.isLookup = false ∧ e.isDelete = false ∧
      e.isMakeIterator = false ∧ e.isAccess = false := by
  cases e <;> simp_all [Event.isCleanup, Event.isStep, Event.isRun, Event.isLookup,
    Event.isDelete, Event.isMakeIterator, Event.isAccess]

theorem teardown_events_classes {σ : Type} (rm : ResourceMgr σ) (names : List String) (m : σ) :
    ∀ e ∈ teardown_events rm names m,
      e.isStep = false ∧ e.isRun = false ∧ e.isLookup = false ∧ e.isDelete = false ∧
        e.isMakeIterator = false ∧ e.isAccess = false :=
  fun e he => isCleanup_classes e (teardown_events_isCleanup rm names m e he)

theorem teardown_events_filter_isStep {σ : Type} (rm : ResourceMgr σ) (names : List String)
    (m : σ) : (teardown_events rm names m).filter Event.isStep = [] := by
  rw [List.filter_eq_nil_iff]
  intro e he
  simp [(teardown_events_classes rm names m e he).1]

theorem teardown_events_filter_isRun {σ : Type} (rm : ResourceMgr σ) (names : List String)
    (m : σ) : (teardown_events rm names m).filter Event.isRun = [] := by
  rw [List.filter_eq_nil_iff]
  intro e he
  simp [(teardown_events_classes rm names m e he).2.1]

theorem teardown_events_filter_isDelete {σ : Type} (rm : ResourceMgr σ) (names : List String)
    (m : σ) : (teardown_events rm names m).filter Event.isDelete = [] := by
  rw [List.filter_eq_nil_iff]
  intro e he
  simp [(teardown_events_classes rm names m e he).2.2.2.1]

theorem cleanup_names_append (l1 l2 : List Event) :
    cleanup_names (l1 ++ l2) = cleanup_names l1 ++ cleanup_names l2 := by
  induction l1 with
  | nil => simp [cleanup_names]
  | cons e l ih => cases e <;> simp [cleanup_names, ih]

theorem cleanup_names_eq_nil (l : List Event) (h : ∀ e ∈ l, e.isCleanup = false) :
    cleanup_names l = [] := by
  induction l with
  | nil => simp [cleanup_names]
  | cons e l ih =>
    have he := h e (List.mem_cons_self e l)
    have hl := ih (fun x hx => h x (List.mem_cons_of_mem e hx))
    cases e <;> simp_all [cleanup_names, Event.isCleanup]

theorem generate_step_id_eq (r : Nat) :
    CapturedFunction.generate_step_id r = ((r % 2 ^ 63 : Nat) : Int) - 2 ^ 63 := by
  have h : r % 2 ^ 63 < 2 ^ 63 := Nat.mod_lt _ (by norm_num)
  have h1 : (2 ^ 63 + r % 2 ^ 63) % 2 ^ 64 = 2 ^ 63 + r % 2 ^ 63 :=
    Nat.mod_eq_of_lt (by norm_num at h ⊢; omega)
  unfold CapturedFunction.generate_step_id wrap_int64
  rw [h1]
  have h2 : ¬ (2 ^ 63 + r % 2 ^ 63 < 2 ^ 63) := by omega
  rw [if_neg h2]
  push_cast
  ring

theorem filter_not_isCleanup_teardown {σ : Type} (rm : ResourceMgr σ) (names : List String)
    (m : σ) : (teardown_events rm names m).filter (fun e => !e.isCleanup) = [] := by
  rw [List.filter_eq_nil_iff]
  intro e he
  simp [teardown_events_isCleanup rm names m e he]

/-! ## Lemmas on the keyed registry -/

theorem find_filter_none {α : Type} (p q : α → Bool) (l : List α) (h : l.find? p = none) :
    (l.filter q).find? p = none := by
  rw [List.find?_eq_none] at h ⊢
  intro x hx
  exact h x (List.mem_of_mem_filter hx)

theorem Registry.Lookup_not_found_iff (hash : Nat) (c n : String) (reg : Registry) :
    Registry.Lookup hash c n reg = Except.error (Registry.not_found c n) ↔
      reg.find? (fun e => e.is_entry hash c n) = none := by
  unfold Registry.Lookup
  cases h : reg.find? (fun e => e.is_entry hash c n) <;> simp

theorem Registry.Lookup_ok_any (hash : Nat) (c n : String) (reg : Registry) (d : DatasetBase)
    (h : Registry.Lookup hash c n reg = Except.ok d) :
    reg.any (fun e => e.is_entry hash c n) = true := by
  unfold Registry.Lookup at h
  cases hf : reg.find? (fun e => e.is_entry hash c n) with
  | none => rw [hf] at h; simp at h
  | some e =>
    have h1 := List.find?_some hf
    rw [List.any_eq_true]
    exact ⟨e, List.mem_of_find?_eq_some hf, h1⟩

theorem Registry.Lookup_after_Delete (hash : Nat) (c n : String) (reg : Registry) :
    Registry.Lookup hash c n (reg.filter (fun e => !e.is_entry hash c n)) =
      Except.error (Registry.not_found c n) := by
  rw [Registry.Lookup_not_found_iff, List.find?_eq_none]
  intro x hx
  have := (List.mem_filter.mp hx).2
  simpa using this

theorem Registry.teardown_not_found (hash : Nat) (c n : String) (names : List String)
    (reg : Registry)
    (h : Registry.Lookup hash c n reg = Except.error (Registry.not_found c n)) :
    Registry.Lookup hash c n (teardown_mgr (Registry.resource_manager hash) names reg) =
      Except.error (Registry.not_found c n) := by
  induction names generalizing reg with
  | nil => simpa [teardown_mgr] using h
  | cons a names ih =>
    simp only [teardown_mgr]
    apply ih
    rw [Registry.Lookup_not_found_iff] at h ⊢
    exact find_filter_none _ _ _ h

/-! ## Lemmas on the decimal rendering -/

theorem digitChar_value : ∀ d : Fin 10, (Nat.digitChar d.val).toNat - 48 = d.val := by
  decide

theorem digitChar_ne_minus : ∀ d : Fin 10, Nat.digitChar d.val ≠ '-' := by
  decide

theorem decimal_value_append (cs : List Char) (c : Char) :
    decimal_value (cs ++ [c]) = 10 * decimal_value cs + (c.toNat - 48) := by
  simp [decimal_value, List.foldl_append]

theorem decimal_value_decimal_digits (n : Nat) : decimal_value (decimal_digits n) = n := by
  induction n using Nat.strong_induction_on with
  | _ n ih =>
    rw [decimal_digits]
    by_cases h : n < 10
    · rw [dif_pos h]
      have := digitChar_value ⟨n, h⟩
      simpa [decimal_value] using this
    · rw [dif_neg h, decimal_value_append, ih (n / 10) (by omega)]
      have := digitChar_value ⟨n % 10, Nat.mod_lt _ (by norm_num)⟩
      simp only at this
      rw [this]
      omega

theorem decimal_digits_injective (n m : Nat) (h : decimal_digits n = decimal_digits m) :
    n = m := by
  rw [← decimal_value_decimal_digits n, ← decimal_value_decimal_digits m, h]

theorem decimal_digits_no_minus (n : Nat) : ∀ c ∈ decimal_digits n, c ≠ '-' := by
  induction n using Nat.strong_induction_on with
  | _ n ih =>
    intro c hc
    rw [decimal_digits] at hc
    by_cases h : n < 10
    · rw [dif_pos h] at hc
      simp only [List.mem_singleton] at hc
      rw [hc]
      exact digitChar_ne_minus ⟨n, h⟩
    · rw [dif_neg h] at hc
      simp only [List.mem_append, List.mem_singleton] at hc
      rcases hc with hc | hc
      · exact ih (n / 10) (by omega) c hc
      · rw [hc]
        exact digitChar_ne_minus ⟨n % 10, Nat.mod_lt _ (by norm_num)⟩

theorem render_int64_injective (i j : Int)
    (h : AlphaNum.render (AlphaNum.int64 i) = AlphaNum.render (AlphaNum.int64 j)) : i = j := by
  simp only [AlphaNum.render] at h
  by_cases hi : i < 0 <;> by_cases hj : j < 0
  · rw [if_pos hi, if_pos hj] at h
    have := decimal_digits_injective _ _ (List.cons_injective h)
    omega
  · rw [if_pos hi, if_neg hj] at h
    exact absurd rfl (decimal_digits_no_minus j.toNat '-' (by rw [← h]; simp))
  · rw [if_neg hi, if_pos hj] at h
    exact absurd rfl (decimal_digits_no_minus i.toNat '-' (by rw [h]; simp))
  · rw [if_neg hi, if_neg hj] at h
    have := decimal_digits_injective _ _ h
    omega

theorem iterator_label_eq (pfx : String) (i : Int) :
    iterator_label pfx i =
      pfx ++ "[" ++ String.mk (AlphaNum.render (AlphaNum.int64 i)) ++ "]" := by
  apply String.ext
  simp [iterator_label, strings.StrCat, AlphaNum.render]

theorem iterator_label_injective (pfx : String) (i j : Int)
    (h : iterator_label pfx i = iterator_label pfx j) : i = j := by
  apply render_int64_injective
  have h2 := congrArg String.data h
  simp only [iterator_label, strings.StrCat, List.map_cons, List.map_nil, List.flatten_cons,
    List.flatten_nil, List.append_nil] at h2
  have h3 := List.append_cancel_left (List.append_cancel_left h2)
  exact List.append_cancel_right h3

/-! ## The exit paths of the operation -/

section paths

variable {σ : Type} (rt : Runtime) (ctx : IteratorContext) (input_element : List Tensor)
  (thread_index : Int) (cf : CapturedFunction σ) (pfx : String)
  (out_iterator : Option IteratorBase) (mgr : σ)

theorem path_run_error (f : Failure)
    (hrun : (cf.Run (run_options rt ctx) input_element mgr).result = Except.error f) :
    MakeIteratorFromInputElement rt ctx input_element thread_index cf pfx out_iterator mgr =
      (Status.error f,
        ⟨teardown_mgr cf.resource_manager (step_names rt ctx input_element cf mgr)
            (cf.Run (run_options rt ctx) input_element mgr).mgr,
          out_iterator,
          [Event.Run (run_options rt ctx) (Except.error f)] ++
            teardown_events cf.resource_manager (step_names rt ctx input_element cf mgr)
              (cf.Run (run_options rt ctx) input_element mgr).mgr⟩) := by
  simp only [MakeIteratorFromInputElement, destroy_eq, hrun, step_names, registered_names]

theorem path_invalid (rv : List Tensor)
    (hrun : (cf.Run (run_options rt ctx) input_element mgr).result = Except.ok rv)
    (hbad : ¬ single_scalar_resource rv) :
    ∃ acc : List Event, (∀ e ∈ acc, e = Event.Access 0 ∧ 0 < rv.length) ∧
    MakeIteratorFromInputElement rt ctx input_element thread_index cf pfx out_iterator mgr =
      (errors.InvalidArgument "Function must return a single scalar of dtype DT_RESOURCE.",
        ⟨teardown_mgr cf.resource_manager (step_names rt ctx input_element cf mgr)
            (cf.Run (run_options rt ctx) input_element mgr).mgr,
          out_iterator,
          [Event.Run (run_options rt ctx) (Except.ok rv)] ++ acc ++
            teardown_events cf.resource_manager (step_names rt ctx input_element cf mgr)
              (cf.Run (run_options rt ctx) input_element mgr).mgr⟩) := by
  simp only [MakeIteratorFromInputElement, destroy_eq, hrun, step_names, registered_names]
  match rv, hbad with
  | [], _ => exact ⟨[], by simp, by simp⟩
  | [t], hbad =>
    by_cases h2 : t.dtype = DT_RESOURCE
    · have h3 : ¬ TensorShapeUtils.IsScalar t.shape = true :=
        fun h3 => hbad (by simp [single_scalar_resource, h2, h3])
      refine ⟨[Event.Access 0, Event.Access 0], ?_, ?_⟩
      · intro e he
        simp only [List.mem_cons, List.mem_singleton, List.not_mem_nil, or_false, or_self] at he
        exact ⟨he, by simp⟩
      · simp [h2, h3]
    · refine ⟨[Event.Access 0], ?_, ?_⟩
      · intro e he
        simp only [List.mem_singleton] at he
        exact ⟨he, by simp⟩
      · simp [h2]
  | t :: t2 :: ts, _ => exact ⟨[], by simp, by simp⟩

theorem path_valid (t : Tensor) (hd : t.dtype = DT_RESOURCE)
    (hs : TensorShapeUtils.IsScalar t.shape = true)
    (hrun : (cf.Run (run_options rt ctx) input_element mgr).result = Except.ok [t]) :
    MakeIteratorFromInputElement rt ctx input_element thread_index cf pfx out_iterator mgr =
      ((MakeIteratorFromInputElement.handoff rt thread_index cf pfx
          (t.scalar_ResourceHandle hd hs)
          ⟨(cf.Run (run_options rt ctx) input_element mgr).mgr, out_iterator,
            [Event.Run (run_options rt ctx) (Except.ok [t]), Event.Access 0, Event.Access 0,
              Event.Access 0]⟩).1,
        ⟨teardown_mgr cf.resource_manager (step_names rt ctx input_element cf mgr)
            (MakeIteratorFromInputElement.handoff rt thread_index cf pfx
              (t.scalar_ResourceHandle hd hs)
              ⟨(cf.Run (run_options rt ctx) input_element mgr).mgr, out_iterator,
                [Event.Run (run_options rt ctx) (Except.ok [t]), Event.Access 0, Event.Access 0,
                  Event.Access 0]⟩).2.mgr,
          (MakeIteratorFromInputElement.handoff rt thread_index cf pfx
              (t.scalar_ResourceHandle hd hs)
              ⟨(cf.Run (run_options rt ctx) input_element mgr).mgr, out_iterator,
                [Event.Run (run_options rt ctx) (Except.ok [t]), Event.Access 0, Event.Access 0,
                  Event.Access 0]⟩).2.out_iterator,
          (MakeIteratorFromInputElement.handoff rt thread_index cf pfx
              (t.scalar_ResourceHandle hd hs)
              ⟨(cf.Run (run_options rt ctx) input_element mgr).mgr, out_iterator,
                [Event.Run (run_options rt ctx) (Except.ok [t]), Event.Access 0, Event.Access 0,
                  Event.Access 0]⟩).2.trace ++
            teardown_events cf.resource_manager (step_names rt ctx input_element cf mgr)
              (MakeIteratorFromInputElement.handoff rt thread_index cf pfx
                (t.scalar_ResourceHandle hd hs)
                ⟨(cf.Run (run_options rt ctx) input_element mgr).mgr, out_iterator,
                  [Event.Run (run_options rt ctx) (Except.ok [t]), Event.Access 0,
                    Event.Access 0, Event.Access 0]⟩).2.mgr⟩) := by
  simp only [MakeIteratorFromInputElement, destroy_eq, hrun, step_names, registered_names]
  simp [hd, hs]

theorem handoff_tag_mismatch (h : ResourceHandle) (fr : Frame σ)
    (htag : rt.dataset_hash_code ≠ h.hash_code) :
    MakeIteratorFromInputElement.handoff rt thread_index cf pfx h fr =
      (errors.InvalidArgument "Function must return a Dataset resource.", fr) := by
  simp [MakeIteratorFromInputElement.handoff, htag]

theorem handoff_lookup_error (h : ResourceHandle) (fr : Frame σ) (f : Failure) (m : σ)
    (htag : rt.dataset_hash_code = h.hash_code)
    (hl : cf.resource_manager.Lookup h.container h.name fr.mgr = (Except.error f, m)) :
    MakeIteratorFromInputElement.handoff rt thread_index cf pfx h fr =
      (Status.error f, ⟨m, fr.out_iterator,
        fr.trace ++ [Event.Lookup h.container h.name (Except.error f)]⟩) := by
  simp [MakeIteratorFromInputElement.handoff, htag, hl]

theorem handoff_lookup_ok (h : ResourceHandle) (fr : Frame σ) (d : DatasetBase) (m : σ)
    (htag : rt.dataset_hash_code = h.hash_code)
    (hl : cf.resource_manager.Lookup h.container h.name fr.mgr = (Except.ok d, m)) :
    MakeIteratorFromInputElement.handoff rt thread_index cf pfx h fr =
      ((cf.resource_manager.Delete h.container h.name m).1,
        ⟨(cf.resource_manager.Delete h.container h.name m).2,
          some (d.MakeIterator (iterator_label pfx thread_index)),
          fr.trace ++ [Event.Lookup h.container h.name (Except.ok d),
            Event.MakeIterator (iterator_label pfx thread_index),
            Event.Delete h.container h.name (cf.resource_manager.Delete h.container h.name m).1,
            Event.Unref]⟩) := by
  simp only [MakeIteratorFromInputElement.handoff, htag, hl]
  cases hdel : (cf.resource_manager.Delete h.container h.name m).1 <;> simp

/-- Every run of the operation takes one of five exit paths: the function run
fails; the output validation fails; the type tags differ; the lookup fails; the
lookup succeeds and the status is the one of the delete. -/
theorem run_cases :
    (∃ f : Failure, (run_outcome rt ctx input_element cf mgr).result = Except.error f ∧
      MakeIteratorFromInputElement rt ctx input_element thread_index cf pfx out_iterator mgr =
        (Status.error f,
          ⟨teardown_mgr cf.resource_manager (step_names rt ctx input_element cf mgr)
              (run_outcome rt ctx input_element cf mgr).mgr,
            out_iterator,
            [Event.Run (run_options rt ctx) (Except.error f)] ++
              teardown_events cf.resource_manager (step_names rt ctx input_element cf mgr)
                (run_outcome rt ctx input_element cf mgr).mgr⟩)) ∨
    (∃ (rv : List Tensor) (acc : List Event),
      (run_outcome rt ctx input_element cf mgr).result = Except.ok rv ∧
      ¬ single_scalar_resource rv ∧ (∀ e ∈ acc, e = Event.Access 0 ∧ 0 < rv.length) ∧
      MakeIteratorFromInputElement rt ctx input_element thread_index cf pfx out_iterator mgr =
        (errors.InvalidArgument "Function must return a single scalar of dtype DT_RESOURCE.",
          ⟨teardown_mgr cf.resource_manager (step_names rt ctx input_element cf mgr)
              (run_outcome rt ctx input_element cf mgr).mgr,
            out_iterator,
            [Event.Run (run_options rt ctx) (Except.ok rv)] ++ acc ++
              teardown_events cf.resource_manager (step_names rt ctx input_element cf mgr)
                (run_outcome rt ctx input_element cf mgr).mgr⟩)) ∨
    (∃ (t : Tensor) (hd : t.dtype = DT_RESOURCE)
        (hs : TensorShapeUtils.IsScalar t.shape = true),
      (run_outcome rt ctx input_element cf mgr).result = Except.ok [t] ∧
      rt.dataset_hash_code ≠ (t.scalar_ResourceHandle hd hs).hash_code ∧
      MakeIteratorFromInputElement rt ctx input_element thread_index cf pfx out_iterator mgr =
        (errors.InvalidArgument "Function must return a Dataset resource.",
          ⟨teardown_mgr cf.resource_manager (step_names rt ctx input_element cf mgr)
              (run_outcome rt ctx input_element cf mgr).mgr,
            out_iterator,
            [Event.Run (run_options rt ctx) (Except.ok [t]), Event.Access 0, Event.Access 0,
                Event.Access 0] ++
              teardown_events cf.resource_manager (step_names rt ctx input_element cf mgr)
                (run_outcome rt ctx input_element cf mgr).mgr⟩)) ∨
    (∃ (t : Tensor) (hd : t.dtype = DT_RESOURCE)
        (hs : TensorShapeUtils.IsScalar t.shape = true) (f : Failure) (m : σ),
      (run_outcome rt ctx input_element cf mgr).result = Except.ok [t] ∧
      rt.dataset_hash_code = (t.scalar_ResourceHandle hd hs).hash_code ∧
      cf.resource_manager.Lookup (t.scalar_ResourceHandle hd hs).container
        (t.scalar_ResourceHandle hd hs).name (run_outcome rt ctx input_element cf mgr).mgr =
          (Except.error f, m) ∧
      MakeIteratorFromInputElement rt ctx input_element thread_index cf pfx out_iterator mgr =
        (Status.error f,
          ⟨teardown_mgr cf.resource_manager (step_names rt ctx input_element cf mgr) m,
            out_iterator,
            [Event.Run (run_options rt ctx) (Except.ok [t]), Event.Access 0, Event.Access 0,
                Event.Access 0,
                Event.Lookup (t.scalar_ResourceHandle hd hs).container
                  (t.scalar_ResourceHandle hd hs).name (Except.error f)] ++
              teardown_events cf.resource_manager (step_names rt ctx input_element cf mgr) m⟩)) ∨
    (∃ (t : Tensor) (hd : t.dtype = DT_RESOURCE)
        (hs : TensorShapeUtils.IsScalar t.shape = true) (d : DatasetBase) (m : σ),
      (run_outcome rt ctx input_element cf mgr).result = Except.ok [t] ∧
      rt.dataset_hash_code = (t.scalar_ResourceHandle hd hs).hash_code ∧
      cf.resource_manager.Lookup (t.scalar_ResourceHandle hd hs).container
        (t.scalar_ResourceHandle hd hs).name (run_outcome rt ctx input_element cf mgr).mgr =
          (Except.ok d, m) ∧
      MakeIteratorFromInputElement rt ctx input_element thread_index cf pfx out_iterator mgr =
        ((cf.resource_manager.Delete (t.scalar_ResourceHandle hd hs).container
            (t.scalar_ResourceHandle hd hs).name m).1,
          ⟨teardown_mgr cf.resource_manager (step_names rt ctx input_element cf mgr)
              (cf.resource_manager.Delete (t.scalar_ResourceHandle hd hs).container
                (t.scalar_ResourceHandle hd hs).name m).2,
            some (d.MakeIterator (iterator_label pfx thread_index)),
            [Event.Run (run_options rt ctx) (Except.ok [t]), Event.Access 0, Event.Access 0,
                Event.Access 0,
                Event.Lookup (t.scalar_ResourceHandle hd hs).container
                  (t.scalar_ResourceHandle hd hs).name (Except.ok d),
                Event.MakeIterator (iterator_label pfx thread_index),
                Event.Delete (t.scalar_ResourceHandle hd hs).container
                  (t.scalar_ResourceHandle hd hs).name
                  (cf.resource_manager.Delete (t.scalar_ResourceHandle hd hs).container
                    (t.scalar_ResourceHandle hd hs).name m).1,
                Event.Unref] ++
              teardown_events cf.resource_manager (step_names rt ctx input_element cf mgr)
                (cf.resource_manager.Delete (t.scalar_ResourceHandle hd hs).container
                  (t.scalar_ResourceHandle hd hs).name m).2⟩)) := by
  cases hrun : (run_outcome rt ctx input_element cf mgr).result with
  | error f =>
    left
    exact ⟨f, rfl, path_run_error rt ctx input_element thread_index cf pfx out_iterator mgr f hrun⟩
  | ok rv =>
    right
    by_cases hv : single_scalar_resource rv
    · right
      obtain ⟨t, rfl, hd, hs⟩ := (single_scalar_resource_iff rv).mp hv
      have hM := path_valid rt ctx input_element thread_index cf pfx out_iterator mgr t hd hs hrun
      by_cases htag : rt.dataset_hash_code = (t.scalar_ResourceHandle hd hs).hash_code
      · right
        cases hl : cf.resource_manager.Lookup (t.scalar_ResourceHandle hd hs).container
            (t.scalar_ResourceHandle hd hs).name (run_outcome rt ctx input_element cf mgr).mgr with
        | mk res m =>
          cases res with
          | error f =>
            left
            refine ⟨t, hd, hs, f, m, rfl, htag, hl, ?_⟩
            rw [hM, handoff_lookup_error rt thread_index cf pfx _ _ f m htag hl]
            simp
          | ok d =>
            right
            refine ⟨t, hd, hs, d, m, rfl, htag, hl, ?_⟩
            rw [hM, handoff_lookup_ok rt thread_index cf pfx _ _ d m htag hl]
            simp
      · left
        refine ⟨t, hd, hs, rfl, htag, ?_⟩
        rw [hM, handoff_tag_mismatch rt thread_index cf pfx _ _ htag]
        rfl
    · left
      obtain ⟨acc, hacc, hM⟩ := path_invalid rt ctx input_element thread_index cf pfx
        out_iterator mgr rv hrun hv
      exact ⟨rv, acc, rfl, hv, hacc, hM⟩

end paths

/-! ## Evaluation on the scenarios -/

/-- The four kinds of invalid returned value sets (no value, two values, a
non-scalar resource value, a scalar of another kind) all end in the
InvalidArgument failure of the output validation, the output slot empty. -/
theorem shape_validation_examples :
    (MakeIteratorFromInputElement scenario_rt scenario_ctx [Tensor.of_int64 42] 0
        (returning [] [] stub_resource_manager) "p" none ()).1 =
      errors.InvalidArgument "Function must return a single scalar of dtype DT_RESOURCE." ∧
    (MakeIteratorFromInputElement scenario_rt scenario_ctx [Tensor.of_int64 42] 0
        (returning [Tensor.of_handle scenario_handle, Tensor.of_handle scenario_handle] []
          stub_resource_manager) "p" none ()).1 =
      errors.InvalidArgument "Function must return a single scalar of dtype DT_RESOURCE." ∧
    (MakeIteratorFromInputElement scenario_rt scenario_ctx [Tensor.of_int64 42] 0
        (returning [Tensor.of_handles2 scenario_handle scenario_handle] []
          stub_resource_manager) "p" none ()).1 =
      errors.InvalidArgument "Function must return a single scalar of dtype DT_RESOURCE." ∧
    (MakeIteratorFromInputElement scenario_rt scenario_ctx [Tensor.of_int64 42] 0
        (returning [Tensor.of_int64 7] [] stub_resource_manager) "p" none ()).1 =
      errors.InvalidArgument "Function must return a single scalar of dtype DT_RESOURCE." ∧
    (MakeIteratorFromInputElement scenario_rt scenario_ctx [Tensor.of_int64 42] 0
        (returning [Tensor.of_int64 7] [] stub_resource_manager) "p" none ()).2.out_iterator =
      none := by
  decide

/-- The end-to-end scenario: input element [42], the function registers the
dataset under ("c", "ds1") and returns its handle.  The operation returns OK,
the slot holds the iterator labelled "p[0]", the registry is empty again, and
the name "tmp" registered under the step was cleaned up. -/
theorem end_to_end_scenario :
    (MakeIteratorFromInputElement scenario_rt scenario_ctx [Tensor.of_int64 42] 0
        scenario_function "p" none []).1 = Status.OK ∧
    (MakeIteratorFromInputElement scenario_rt scenario_ctx [Tensor.of_int64 42] 0
        scenario_function "p" none []).2.out_iterator = some ⟨"p[0]", [10, 20, 30]⟩ ∧
    (MakeIteratorFromInputElement scenario_rt scenario_ctx [Tensor.of_int64 42] 0
        scenario_function "p" none []).2.mgr = [] ∧
    cleanup_names (MakeIteratorFromInputElement scenario_rt scenario_ctx [Tensor.of_int64 42] 0
        scenario_function "p" none []).2.trace = ["tmp"] ∧
    (run_options scenario_rt scenario_ctx).step_id = -9223372036854775803 := by
  refine ⟨by decide, ?_, ?_, ?_, by decide⟩
  · simp [MakeIteratorFromInputElement, MakeIteratorFromInputElement.handoff,
      scenario_function, scenario_rt, scenario_handle, scenario_dataset, Tensor.of_handle,
      Tensor.scalar_ResourceHandle, DT_RESOURCE, TensorShapeUtils.IsScalar, destroy_eq,
      Registry.resource_manager, Registry.Lookup, Registry.Delete, Registry.Create,
      RegistryEntry.is_entry, iterator_label, strings.StrCat, AlphaNum.render,
      decimal_digits, Nat.digitChar]
  · simp [MakeIteratorFromInputElement, MakeIteratorFromInputElement.handoff,
      scenario_function, scenario_rt, scenario_handle, scenario_dataset, Tensor.of_handle,
      Tensor.scalar_ResourceHandle, DT_RESOURCE, TensorShapeUtils.IsScalar, destroy_eq,
      Registry.resource_manager, Registry.Lookup, Registry.Delete, Registry.Create,
      Registry.Cleanup, RegistryEntry.is_entry, teardown_mgr, ScopedStepContainer.register,
      ScopedStepContainer.create]
  · simp [MakeIteratorFromInputElement, MakeIteratorFromInputElement.handoff,
      scenario_function, scenario_rt, scenario_handle, scenario_dataset, Tensor.of_handle,
      Tensor.scalar_ResourceHandle, DT_RESOURCE, TensorShapeUtils.IsScalar, destroy_eq,
      Registry.resource_manager, Registry.Lookup, Registry.Delete, Registry.Create,
      Registry.Cleanup, RegistryEntry.is_entry, teardown_events, cleanup_names,
      cleanup_names_append, cleanup_names_teardown_events, ScopedStepContainer.register,
      ScopedStepContainer.create]

/-! ## Properties of the operation -/

section claims

variable {σ : Type} (rt : Runtime) (ctx : IteratorContext) (input_element : List Tensor)
  (thread_index : Int) (cf : CapturedFunction σ) (pfx : String)
  (out_iterator : Option IteratorBase) (mgr : σ)

/-- C1: when the function run succeeds but the returned value set is not exactly
one scalar value of kind DT_RESOURCE, the operation returns the InvalidArgument
failure of the output validation, the trace holds no registry Lookup and no
registry Delete, and every element access is within the returned value set (so
none at all when the set is empty). -/
theorem C1_shape_validation (rv : List Tensor)
    (hrun : (run_outcome rt ctx input_element cf mgr).result = Except.ok rv)
    (hbad : ¬ single_scalar_resource rv) :
    (MakeIteratorFromInputElement rt ctx input_element thread_index cf pfx out_iterator mgr).1 =
        Status.error ⟨Code.INVALID_ARGUMENT,
          "Function must return a single scalar of dtype DT_RESOURCE."⟩ ∧
      (∀ e ∈ (MakeIteratorFromInputElement rt ctx input_element thread_index cf pfx
          out_iterator mgr).2.trace, e.isLookup = false ∧ e.isDelete = false) ∧
      (∀ i, Event.Access i ∈ (MakeIteratorFromInputElement rt ctx input_element thread_index
          cf pfx out_iterator mgr).2.trace → i < rv.length) ∧
      (rv = [] → ∀ e ∈ (MakeIteratorFromInputElement rt ctx input_element thread_index cf pfx
          out_iterator mgr).2.trace, e.isAccess = false) := by
  obtain ⟨acc, hacc, hM⟩ := path_invalid rt ctx input_element thread_index cf pfx out_iterator
    mgr rv hrun hbad
  rw [hM]
  have hmem : ∀ e ∈ ([Event.Run (run_options rt ctx) (Except.ok rv)] ++ acc ++
      teardown_events cf.resource_manager (step_names rt ctx input_element cf mgr)
        (cf.Run (run_options rt ctx) input_element mgr).mgr),
      e.isRun = true ∨ (e = Event.Access 0 ∧ 0 < rv.length) ∨ e.isCleanup = true := by
    intro e he
    simp only [List.mem_append, List.mem_singleton] at he
    rcases he with (he | he) | he
    · left; subst he; rfl
    · right; left; exact hacc e he
    · right; right; exact teardown_events_isCleanup _ _ _ e he
  refine ⟨rfl, ?_, ?_, ?_⟩
  · intro e he
    rcases hmem e he with h | h | h
    · cases e <;> simp_all [Event.isRun, Event.isLookup, Event.isDelete]
    · rw [h.1]; exact ⟨rfl, rfl⟩
    · cases e <;> simp_all [Event.isCleanup, Event.isLookup, Event.isDelete]
  · intro i he
    rcases hmem _ he with h | h | h
    · simp [Event.isRun] at h
    · have h1 := h.1
      injection h1 with h1
      omega
    · simp [Event.isCleanup] at h
  · intro hnil e he
    rcases hmem e he with h | h | h
    · cases e <;> simp_all [Event.isRun, Event.isAccess]
    · rw [hnil] at h; simp at h
    · cases e <;> simp_all [Event.isCleanup, Event.isAccess]

/-- Witness for C1: the function returns the empty value set. -/
theorem C1_shape_validation_witness :
    (run_outcome scenario_rt scenario_ctx [Tensor.of_int64 42]
        (returning [] [] stub_resource_manager) ()).result = Except.ok [] ∧
      ¬ single_scalar_resource [] ∧
      ((MakeIteratorFromInputElement scenario_rt scenario_ctx [Tensor.of_int64 42] 0
          (returning [] [] stub_resource_manager) "p" none ()).1 =
        Status.error ⟨Code.INVALID_ARGUMENT,
          "Function must return a single scalar of dtype DT_RESOURCE."⟩ ∧
      (∀ e ∈ (MakeIteratorFromInputElement scenario_rt scenario_ctx [Tensor.of_int64 42] 0
          (returning [] [] stub_resource_manager) "p" none ()).2.trace,
          e.isLookup = false ∧ e.isDelete = false) ∧
      (∀ i, Event.Access i ∈ (MakeIteratorFromInputElement scenario_rt scenario_ctx
          [Tensor.of_int64 42] 0 (returning [] [] stub_resource_manager) "p" none ()).2.trace →
          i < ([] : List Tensor).length) ∧
      (([] : List Tensor) = [] → ∀ e ∈ (MakeIteratorFromInputElement scenario_rt scenario_ctx
          [Tensor.of_int64 42] 0 (returning [] [] stub_resource_manager) "p" none ()).2.trace,
          e.isAccess = false)) :=
  ⟨rfl, by simp [single_scalar_resource],
    C1_shape_validation scenario_rt scenario_ctx [Tensor.of_int64 42] 0
      (returning [] [] stub_resource_manager) "p" none () [] rfl
      (by simp [single_scalar_resource])⟩

/-- C2: when the function returns exactly one scalar resource handle whose type
tag differs from the dataset type tag, the operation returns the
InvalidArgument failure of the type-tag check, the trace holds no registry
Lookup, no registry Delete and no iterator construction, and the output slot
is as before the call. -/
theorem C2_type_tag_gate (t : Tensor) (hd : t.dtype = DT_RESOURCE)
    (hs : TensorShapeUtils.IsScalar t.shape = true)
    (hrun : (run_outcome rt ctx input_element cf mgr).result = Except.ok [t])
    (htag : (t.scalar_ResourceHandle hd hs).hash_code ≠ rt.dataset_hash_code) :
    (MakeIteratorFromInputElement rt ctx input_element thread_index cf pfx out_iterator mgr).1 =
        Status.error ⟨Code.INVALID_ARGUMENT, "Function must return a Dataset resource."⟩ ∧
      (∀ e ∈ (MakeIteratorFromInputElement rt ctx input_element thread_index cf pfx
          out_iterator mgr).2.trace,
          e.isLookup = false ∧ e.isDelete = false ∧ e.isMakeIterator = false) ∧
      (MakeIteratorFromInputElement rt ctx input_element thread_index cf pfx
          out_iterator mgr).2.out_iterator = out_iterator := by
  have hM := path_valid rt ctx input_element thread_index cf pfx out_iterator mgr t hd hs hrun
  rw [handoff_tag_mismatch rt thread_index cf pfx _ _ (fun h => htag h.symm)] at hM
  rw [hM]
  refine ⟨rfl, ?_, rfl⟩
  intro e he
  simp only [List.mem_append, List.mem_cons, List.mem_singleton, List.not_mem_nil,
    or_false] at he
  rcases he with (he | he | he | he) | he
  · subst he; exact ⟨rfl, rfl, rfl⟩
  · subst he; exact ⟨rfl, rfl, rfl⟩
  · subst he; exact ⟨rfl, rfl, rfl⟩
  · subst he; exact ⟨rfl, rfl, rfl⟩
  · have h := teardown_events_classes _ _ _ e he
    exact ⟨h.2.2.1, h.2.2.2.1, h.2.2.2.2.1⟩

/-- Witness for C2: the function returns the handle ("c", "ds1") with type tag 8
while the dataset type tag is 7. -/
theorem C2_type_tag_gate_witness :
    (run_outcome scenario_rt scenario_ctx [Tensor.of_int64 42]
        (returning [Tensor.of_handle scenario_wrong_tag_handle] [] stub_resource_manager)
          ()).result = Except.ok [Tensor.of_handle scenario_wrong_tag_handle] ∧
      ((Tensor.of_handle scenario_wrong_tag_handle).scalar_ResourceHandle rfl rfl).hash_code ≠
        scenario_rt.dataset_hash_code ∧
      ((MakeIteratorFromInputElement scenario_rt scenario_ctx [Tensor.of_int64 42] 0
          (returning [Tensor.of_handle scenario_wrong_tag_handle] [] stub_resource_manager)
          "p" none ()).1 =
        Status.error ⟨Code.INVALID_ARGUMENT, "Function must return a Dataset resource."⟩ ∧
      (∀ e ∈ (MakeIteratorFromInputElement scenario_rt scenario_ctx [Tensor.of_int64 42] 0
          (returning [Tensor.of_handle scenario_wrong_tag_handle] [] stub_resource_manager)
          "p" none ()).2.trace,
          e.isLookup = false ∧ e.isDelete = false ∧ e.isMakeIterator = false) ∧
      (MakeIteratorFromInputElement scenario_rt scenario_ctx [Tensor.of_int64 42] 0
          (returning [Tensor.of_handle scenario_wrong_tag_handle] [] stub_resource_manager)
          "p" none ()).2.out_iterator = none) :=
  ⟨rfl, by decide,
    C2_type_tag_gate scenario_rt scenario_ctx [Tensor.of_int64 42] 0
      (returning [Tensor.of_handle scenario_wrong_tag_handle] [] stub_resource_manager)
      "p" none () (Tensor.of_handle scenario_wrong_tag_handle) rfl rfl rfl (by decide)⟩

/-- C4 as stated fails: with a registry whose lookup succeeds and whose delete
fails, the operation returns the failure of the delete although the output
slot, empty before the call, holds an iterator afterwards. -/
theorem C4_delete_failure_counterexample :
    (MakeIteratorFromInputElement scenario_rt scenario_ctx [Tensor.of_int64 42] 0
        (returning [Tensor.of_handle scenario_handle] [] delete_fails_resource_manager)
        "p" none ()).1 ≠ Status.OK ∧
      (MakeIteratorFromInputElement scenario_rt scenario_ctx [Tensor.of_int64 42] 0
        (returning [Tensor.of_handle scenario_handle] [] delete_fails_resource_manager)
        "p" none ()).2.out_iterator ≠ none := by
  decide

/-- C4, amended: when the operation returns a failure, either no registry Delete
was called and the output slot is as before the call, or the failure is the one
of the registry Delete and the slot holds the iterator made by the looked-up
dataset. -/
theorem C4_output_slot_on_failure
    (hfail : (MakeIteratorFromInputElement rt ctx input_element thread_index cf pfx
      out_iterator mgr).1 ≠ Status.OK) :
    ((∀ e ∈ (MakeIteratorFromInputElement rt ctx input_element thread_index cf pfx
          out_iterator mgr).2.trace, e.isDelete = false) ∧
      (MakeIteratorFromInputElement rt ctx input_element thread_index cf pfx
          out_iterator mgr).2.out_iterator = out_iterator) ∨
    (∃ (c n : String) (f : Failure) (d : DatasetBase),
      Event.Delete c n (Status.error f) ∈ (MakeIteratorFromInputElement rt ctx input_element
          thread_index cf pfx out_iterator mgr).2.trace ∧
      Event.Lookup c n (Except.ok d) ∈ (MakeIteratorFromInputElement rt ctx input_element
          thread_index cf pfx out_iterator mgr).2.trace ∧
      (MakeIteratorFromInputElement rt ctx input_element thread_index cf pfx
          out_iterator mgr).1 = Status.error f ∧
      (MakeIteratorFromInputElement rt ctx input_element thread_index cf pfx
          out_iterator mgr).2.out_iterator =
        some (d.MakeIterator (iterator_label pfx thread_index))) := by
  rcases run_cases rt ctx input_element thread_index cf pfx out_iterator mgr with
    ⟨f, _, hM⟩ | ⟨rv, acc, _, _, hacc, hM⟩ | ⟨t, hd, hs, _, _, hM⟩ |
    ⟨t, hd, hs, f, m, _, _, _, hM⟩ | ⟨t, hd, hs, d, m, _, _, _, hM⟩
  · left
    rw [hM]
    refine ⟨?_, rfl⟩
    intro e he
    simp only [List.mem_append, List.mem_singleton] at he
    rcases he with he | he
    · subst he; rfl
    · exact (teardown_events_classes _ _ _ e he).2.2.2.1
  · left
    rw [hM]
    refine ⟨?_, rfl⟩
    intro e he
    simp only [List.mem_append, List.mem_singleton] at he
    rcases he with (he | he) | he
    · subst he; rfl
    · rw [(hacc e he).1]; rfl
    · exact (teardown_events_classes _ _ _ e he).2.2.2.1
  · left
    rw [hM]
    refine ⟨?_, rfl⟩
    intro e he
    simp only [List.mem_append, List.mem_cons, List.mem_singleton, List.not_mem_nil,
      or_false] at he
    rcases he with (he | he | he | he) | he
    · subst he; rfl
    · subst he; rfl
    · subst he; rfl
    · subst he; rfl
    · exact (teardown_events_classes _ _ _ e he).2.2.2.1
  · left
    rw [hM]
    refine ⟨?_, rfl⟩
    intro e he
    simp only [List.mem_append, List.mem_cons, List.mem_singleton, List.not_mem_nil,
      or_false] at he
    rcases he with (he | he | he | he | he) | he
    · subst he; rfl
    · subst he; rfl
    · subst he; rfl
    · subst he; rfl
    · subst he; rfl
    · exact (teardown_events_classes _ _ _ e he).2.2.2.1
  · right
    rw [hM] at hfail ⊢
    cases hdel : (cf.resource_manager.Delete (t.scalar_ResourceHandle hd hs).container
        (t.scalar_ResourceHandle hd hs).name m).1 with
    | OK => exact absurd hdel hfail
    | error f =>
      refine ⟨(t.scalar_ResourceHandle hd hs).container, (t.scalar_ResourceHandle hd hs).name,
        f, d, ?_, ?_, rfl, rfl⟩
      · simp
      · simp

/-- Witness for C4: the function returns the empty value set while the output
slot holds an earlier iterator. -/
theorem C4_output_slot_on_failure_witness :
    (MakeIteratorFromInputElement scenario_rt scenario_ctx [Tensor.of_int64 42] 0
        (returning [] [] stub_resource_manager) "p" (some ⟨"old", [1]⟩) ()).1 ≠ Status.OK ∧
    (((∀ e ∈ (MakeIteratorFromInputElement scenario_rt scenario_ctx [Tensor.of_int64 42] 0
          (returning [] [] stub_resource_manager) "p" (some ⟨"old", [1]⟩) ()).2.trace,
          e.isDelete = false) ∧
      (MakeIteratorFromInputElement scenario_rt scenario_ctx [Tensor.of_int64 42] 0
          (returning [] [] stub_resource_manager) "p" (some ⟨"old", [1]⟩) ()).2.out_iterator =
        some ⟨"old", [1]⟩) ∨
    (∃ (c n : String) (f : Failure) (d : DatasetBase),
      Event.Delete c n (Status.error f) ∈ (MakeIteratorFromInputElement scenario_rt
          scenario_ctx [Tensor.of_int64 42] 0 (returning [] [] stub_resource_manager) "p"
          (some ⟨"old", [1]⟩) ()).2.trace ∧
      Event.Lookup c n (Except.ok d) ∈ (MakeIteratorFromInputElement scenario_rt
          scenario_ctx [Tensor.of_int64 42] 0 (returning [] [] stub_resource_manager) "p"
          (some ⟨"old", [1]⟩) ()).2.trace ∧
      (MakeIteratorFromInputElement scenario_rt scenario_ctx [Tensor.of_int64 42] 0
          (returning [] [] stub_resource_manager) "p" (some ⟨"old", [1]⟩) ()).1 =
        Status.error f ∧
      (MakeIteratorFromInputElement scenario_rt scenario_ctx [Tensor.of_int64 42] 0
          (returning [] [] stub_resource_manager) "p" (some ⟨"old", [1]⟩) ()).2.out_iterator =
        some (d.MakeIterator (iterator_label "p" 0)))) :=
  ⟨by decide,
    C4_output_slot_on_failure scenario_rt scenario_ctx [Tensor.of_int64 42] 0
      (returning [] [] stub_resource_manager) "p" (some ⟨"old", [1]⟩) () (by decide)⟩

/-- C5: the collaborator calls of a run are, in this order, the function run,
the registry lookup, the iterator construction and the registry delete, cut
after the first step that fails; the returned status is the failure of that
step (the failure of the function, of the lookup or of the delete as the
collaborator reported it, or the InvalidArgument of the output validation or
of the type-tag check); the status is OK exactly when the run, the validation,
the type-tag check, the lookup and the delete all succeed. -/
theorem C5_first_failure_wins :
    ((∃ f : Failure, (run_outcome rt ctx input_element cf mgr).result = Except.error f ∧
        (MakeIteratorFromInputElement rt ctx input_element thread_index cf pfx out_iterator
          mgr).2.trace.filter Event.isStep = [Event.Run (run_options rt ctx) (Except.error f)] ∧
        (MakeIteratorFromInputElement rt ctx input_element thread_index cf pfx out_iterator
          mgr).1 = Status.error f) ∨
      (∃ rv : List Tensor, (run_outcome rt ctx input_element cf mgr).result = Except.ok rv ∧
        ¬ single_scalar_resource rv ∧
        (MakeIteratorFromInputElement rt ctx input_element thread_index cf pfx out_iterator
          mgr).2.trace.filter Event.isStep = [Event.Run (run_options rt ctx) (Except.ok rv)] ∧
        (MakeIteratorFromInputElement rt ctx input_element thread_index cf pfx out_iterator
          mgr).1 = Status.error ⟨Code.INVALID_ARGUMENT,
            "Function must return a single scalar of dtype DT_RESOURCE."⟩) ∨
      (∃ (t : Tensor) (hd : t.dtype = DT_RESOURCE)
          (hs : TensorShapeUtils.IsScalar t.shape = true),
        (run_outcome rt ctx input_element cf mgr).result = Except.ok [t] ∧
        rt.dataset_hash_code ≠ (t.scalar_ResourceHandle hd hs).hash_code ∧
        (MakeIteratorFromInputElement rt ctx input_element thread_index cf pfx out_iterator
          mgr).2.trace.filter Event.isStep = [Event.Run (run_options rt ctx) (Except.ok [t])] ∧
        (MakeIteratorFromInputElement rt ctx input_element thread_index cf pfx out_iterator
          mgr).1 = Status.error ⟨Code.INVALID_ARGUMENT,
            "Function must return a Dataset resource."⟩) ∨
      (∃ (t : Tensor) (hd : t.dtype = DT_RESOURCE)
          (hs : TensorShapeUtils.IsScalar t.shape = true) (f : Failure) (m : σ),
        (run_outcome rt ctx input_element cf mgr).result = Except.ok [t] ∧
        rt.dataset_hash_code = (t.scalar_ResourceHandle hd hs).hash_code ∧
        cf.resource_manager.Lookup (t.scalar_ResourceHandle hd hs).container
          (t.scalar_ResourceHandle hd hs).name (run_outcome rt ctx input_element cf mgr).mgr =
            (Except.error f, m) ∧
        (MakeIteratorFromInputElement rt ctx input_element thread_index cf pfx out_iterator
          mgr).2.trace.filter Event.isStep =
            [Event.Run (run_options rt ctx) (Except.ok [t]),
              Event.Lookup (t.scalar_ResourceHandle hd hs).container
                (t.scalar_ResourceHandle hd hs).name (Except.error f)] ∧
        (MakeIteratorFromInputElement rt ctx input_element thread_index cf pfx out_iterator
          mgr).1 = Status.error f) ∨
      (∃ (t : Tensor) (hd : t.dtype = DT_RESOURCE)
          (hs : TensorShapeUtils.IsScalar t.shape = true) (d : DatasetBase) (m : σ)
          (f : Failure),
        (run_outcome rt ctx input_element cf mgr).result = Except.ok [t] ∧
        rt.dataset_hash_code = (t.scalar_ResourceHandle hd hs).hash_code ∧
        cf.resource_manager.Lookup (t.scalar_ResourceHandle hd hs).container
          (t.scalar_ResourceHandle hd hs).name (run_outcome rt ctx input_element cf mgr).mgr =
            (Except.ok d, m) ∧
        (cf.resource_manager.Delete (t.scalar_ResourceHandle hd hs).container
          (t.scalar_ResourceHandle hd hs).name m).1 = Status.error f ∧
        (MakeIteratorFromInputElement rt ctx input_element thread_index cf pfx out_iterator
          mgr).2.trace.filter Event.isStep =
            [Event.Run (run_options rt ctx) (Except.ok [t]),
              Event.Lookup (t.scalar_ResourceHandle hd hs).container
                (t.scalar_ResourceHandle hd hs).name (Except.ok d),
              Event.MakeIterator (iterator_label pfx thread_index),
              Event.Delete (t.scalar_ResourceHandle hd hs).container
                (t.scalar_ResourceHandle hd hs).name (Status.error f)] ∧
        (MakeIteratorFromInputElement rt ctx input_element thread_index cf pfx out_iterator
          mgr).1 = Status.error f) ∨
      (∃ (t : Tensor) (hd : t.dtype = DT_RESOURCE)
          (hs : TensorShapeUtils.IsScalar t.shape = true) (d : DatasetBase) (m : σ),
        (run_outcome rt ctx input_element cf mgr).result = Except.ok [t] ∧
        rt.dataset_hash_code = (t.scalar_ResourceHandle hd hs).hash_code ∧
        cf.resource_manager.Lookup (t.scalar_ResourceHandle hd hs).container
          (t.scalar_ResourceHandle hd hs).name (run_outcome rt ctx input_element cf mgr).mgr =
            (Except.ok d, m) ∧
        (cf.resource_manager.Delete (t.scalar_ResourceHandle hd hs).container
          (t.scalar_ResourceHandle hd hs).name m).1 = Status.OK ∧
        (MakeIteratorFromInputElement rt ctx input_element thread_index cf pfx out_iterator
          mgr).2.trace.filter Event.isStep =
            [Event.Run (run_options rt ctx) (Except.ok [t]),
              Event.Lookup (t.scalar_ResourceHandle hd hs).container
                (t.scalar_ResourceHandle hd hs).name (Except.ok d),
              Event.MakeIterator (iterator_label pfx thread_index),
              Event.Delete (t.scalar_ResourceHandle hd hs).container
                (t.scalar_ResourceHandle hd hs).name Status.OK] ∧
        (MakeIteratorFromInputElement rt ctx input_element thread_index cf pfx out_iterator
          mgr).1 = Status.OK)) := by
  rcases run_cases rt ctx input_element thread_index cf pfx out_iterator mgr with
    ⟨f, hrun, hM⟩ | ⟨rv, acc, hrun, hbad, hacc, hM⟩ | ⟨t, hd, hs, hrun, htag, hM⟩ |
    ⟨t, hd, hs, f, m, hrun, htag, hl, hM⟩ | ⟨t, hd, hs, d, m, hrun, htag, hl, hM⟩
  · left
    refine ⟨f, hrun, ?_, by rw [hM]⟩
    rw [hM]
    simp [List.filter_append, teardown_events_filter_isStep, List.filter, Event.isStep]
  · right; left
    refine ⟨rv, hrun, hbad, ?_, by rw [hM]; rfl⟩
    rw [hM]
    have hacc2 : acc.filter Event.isStep = [] := by
      rw [List.filter_eq_nil_iff]
      intro e he
      rw [(hacc e he).1]
      simp [Event.isStep]
    simp [List.filter_append, teardown_events_filter_isStep, hacc2, List.filter, Event.isStep]
  · right; right; left
    refine ⟨t, hd, hs, hrun, htag, ?_, by rw [hM]; rfl⟩
    rw [hM]
    simp [List.filter_append, teardown_events_filter_isStep, List.filter, Event.isStep]
  · right; right; right; left
    refine ⟨t, hd, hs, f, m, hrun, htag, hl, ?_, by rw [hM]⟩
    rw [hM]
    simp [List.filter_append, teardown_events_filter_isStep, List.filter, Event.isStep]
  · right; right; right; right
    cases hdel : (cf.resource_manager.Delete (t.scalar_ResourceHandle hd hs).container
        (t.scalar_ResourceHandle hd hs).name m).1 with
    | OK =>
      right
      refine ⟨t, hd, hs, d, m, hrun, htag, hl, hdel, ?_, by rw [hM, hdel]⟩
      rw [hM, hdel]
      simp [List.filter_append, teardown_events_filter_isStep, List.filter, Event.isStep]
    | error f =>
      left
      refine ⟨t, hd, hs, d, m, f, hrun, htag, hl, hdel, ?_, by rw [hM, hdel]⟩
      rw [hM, hdel]
      simp [List.filter_append, teardown_events_filter_isStep, List.filter, Event.isStep]

/-- C7: on every exit path the trace of the operation ends with the teardown of
the step container: after every other event, the cleanup callback is invoked
for the names registered under the step, and each registered name is cleaned
up exactly once, no other name at all. -/
theorem C7_cleanup_always_runs :
    ∃ pre post : List Event,
      (MakeIteratorFromInputElement rt ctx input_element thread_index cf pfx out_iterator
        mgr).2.trace = pre ++ post ∧
      (∀ e ∈ pre, e.isCleanup = false) ∧ (∀ e ∈ post, e.isCleanup = true) ∧
      cleanup_names post = step_names rt ctx input_element cf mgr ∧
      (∀ n : String, n ∈ step_names rt ctx input_element cf mgr ↔
        n ∈ (run_outcome rt ctx input_element cf mgr).registered) ∧
      (∀ n : String, (cleanup_names (MakeIteratorFromInputElement rt ctx input_element
          thread_index cf pfx out_iterator mgr).2.trace).count n =
        if n ∈ (run_outcome rt ctx input_element cf mgr).registered then 1 else 0) := by
  have key : ∀ (pre : List Event) (m : σ), (∀ e ∈ pre, e.isCleanup = false) →
      (MakeIteratorFromInputElement rt ctx input_element thread_index cf pfx out_iterator
        mgr).2.trace = pre ++ teardown_events cf.resource_manager
          (step_names rt ctx input_element cf mgr) m →
      ∃ pre post : List Event,
      (MakeIteratorFromInputElement rt ctx input_element thread_index cf pfx out_iterator
        mgr).2.trace = pre ++ post ∧
      (∀ e ∈ pre, e.isCleanup = false) ∧ (∀ e ∈ post, e.isCleanup = true) ∧
      cleanup_names post = step_names rt ctx input_element cf mgr ∧
      (∀ n : String, n ∈ step_names rt ctx input_element cf mgr ↔
        n ∈ (run_outcome rt ctx input_element cf mgr).registered) ∧
      (∀ n : String, (cleanup_names (MakeIteratorFromInputElement rt ctx input_element
          thread_index cf pfx out_iterator mgr).2.trace).count n =
        if n ∈ (run_outcome rt ctx input_element cf mgr).registered then 1 else 0) := by
    intro pre m hpre htr
    have hmem : ∀ n : String, n ∈ step_names rt ctx input_element cf mgr ↔
        n ∈ (run_outcome rt ctx input_element cf mgr).registered :=
      fun n => mem_registered_names _ _ n
    refine ⟨pre, _, htr, hpre, teardown_events_isCleanup _ _ _,
      cleanup_names_teardown_events _ _ _, hmem, ?_⟩
    intro n
    have hnd : (step_names rt ctx input_element cf mgr).Nodup := registered_names_nodup _ _
    rw [htr, cleanup_names_append, cleanup_names_eq_nil pre hpre,
      cleanup_names_teardown_events, List.nil_append, List.count_eq_of_nodup hnd]
    simp only [hmem n]
  rcases run_cases rt ctx input_element thread_index cf pfx out_iterator mgr with
    ⟨f, _, hM⟩ | ⟨rv, acc, _, _, hacc, hM⟩ | ⟨t, hd, hs, _, _, hM⟩ |
    ⟨t, hd, hs, f, m, _, _, _, hM⟩ | ⟨t, hd, hs, d, m, _, _, _, hM⟩
  · refine key _ _ ?_ (by rw [hM])
    intro e he
    simp only [List.mem_singleton] at he
    subst he; rfl
  · refine key _ _ ?_ (by rw [hM])
    intro e he
    simp only [List.mem_append, List.mem_singleton] at he
    rcases he with he | he
    · subst he; rfl
    · rw [(hacc e he).1]; rfl
  · refine key _ _ ?_ (by rw [hM])
    intro e he
    simp only [List.mem_cons, List.mem_singleton, List.not_mem_nil, or_false] at he
    rcases he with he | he | he | he <;> (subst he; rfl)
  · refine key _ _ ?_ (by rw [hM])
    intro e he
    simp only [List.mem_cons, List.mem_singleton, List.not_mem_nil, or_false] at he
    rcases he with he | he | he | he | he <;> (subst he; rfl)
  · refine key _ _ ?_ (by rw [hM])
    intro e he
    simp only [List.mem_cons, List.mem_singleton, List.not_mem_nil, or_false] at he
    rcases he with he | he | he | he | he | he | he | he <;> (subst he; rfl)

/-- C8: the first event of every run is the call of the function with the
options built by the operation, and it is the only function run; the step
identifier in these options is a strictly negative 64-bit signed integer, hence
differs from every DirectSession identifier (a non-negative counter) and from
every MasterSession identifier (a 56-bit value); the step container in the
options is bound to the same step identifier. -/
theorem C8_step_id_disjoint :
    (MakeIteratorFromInputElement rt ctx input_element thread_index cf pfx out_iterator
        mgr).2.trace.head? =
      some (Event.Run (run_options rt ctx) (run_outcome rt ctx input_element cf mgr).result) ∧
    (MakeIteratorFromInputElement rt ctx input_element thread_index cf pfx out_iterator
        mgr).2.trace.filter Event.isRun =
      [Event.Run (run_options rt ctx) (run_outcome rt ctx input_element cf mgr).result] ∧
    (run_options rt ctx).step_id < 0 ∧ -(2 : Int) ^ 63 ≤ (run_options rt ctx).step_id ∧
    (∀ n : Nat, (run_options rt ctx).step_id ≠ DirectSession.step_id n) ∧
    (∀ r : Nat, (run_options rt ctx).step_id ≠ MasterSession.step_id r) ∧
    (∃ c : ScopedStepContainer, (run_options rt ctx).step_container = some c ∧
      c.step_id = (run_options rt ctx).step_id ∧ c.names = []) := by
  have hid : (run_options rt ctx).step_id =
      ((rt.random_word % 2 ^ 63 : Nat) : Int) - 2 ^ 63 := generate_step_id_eq _
  have hlt : rt.random_word % 2 ^ 63 < 2 ^ 63 := Nat.mod_lt _ (by norm_num)
  have hneg : (run_options rt ctx).step_id < 0 := by
    rw [hid]
    norm_num at hlt ⊢
    omega
  refine ⟨?_, ?_, hneg, ?_, ?_, ?_, ?_⟩
  · rcases run_cases rt ctx input_element thread_index cf pfx out_iterator mgr with
      ⟨f, hrun, hM⟩ | ⟨rv, acc, hrun, _, hacc, hM⟩ | ⟨t, hd, hs, hrun, _, hM⟩ |
      ⟨t, hd, hs, f, m, hrun, _, _, hM⟩ | ⟨t, hd, hs, d, m, hrun, _, _, hM⟩
    all_goals rw [hM, hrun]
    all_goals rfl
  · rcases run_cases rt ctx input_element thread_index cf pfx out_iterator mgr with
      ⟨f, hrun, hM⟩ | ⟨rv, acc, hrun, _, hacc, hM⟩ | ⟨t, hd, hs, hrun, _, hM⟩ |
      ⟨t, hd, hs, f, m, hrun, _, _, hM⟩ | ⟨t, hd, hs, d, m, hrun, _, _, hM⟩
    · rw [hM, hrun]
      simp [List.filter_append, teardown_events_filter_isRun, List.filter, Event.isRun]
    · rw [hM, hrun]
      have hacc2 : acc.filter Event.isRun = [] := by
        rw [List.filter_eq_nil_iff]
        intro e he
        rw [(hacc e he).1]
        simp [Event.isRun]
      simp [List.filter_append, teardown_events_filter_isRun, hacc2, List.filter, Event.isRun]
    · rw [hM, hrun]
      simp [List.filter_append, teardown_events_filter_isRun, List.filter, Event.isRun]
    · rw [hM, hrun]
      simp [List.filter_append, teardown_events_filter_isRun, List.filter, Event.isRun]
    · rw [hM, hrun]
      simp [List.filter_append, teardown_events_filter_isRun, List.filter, Event.isRun]
  · rw [hid]
    omega
  · intro n h
    rw [h] at hneg
    simp only [DirectSession.step_id] at hneg
    omega
  · intro r h
    rw [h] at hneg
    simp only [MasterSession.step_id] at hneg
    omega
  · exact ⟨ScopedStepContainer.create (run_options rt ctx).step_id, rfl, rfl, rfl⟩

/-- C9: when the trace of a run holds a registry Delete, the function returned
one scalar resource handle, the Delete is the only one of the run, it carries
the (container, name) key of that handle, it comes right after the iterator
construction, which comes right after a successful Lookup with the same key;
the output slot holds the iterator made by the looked-up dataset and the
returned status is the status of the Delete. -/
theorem C9_delete_timing (c n : String) (res : Status)
    (hdel : Event.Delete c n res ∈ (MakeIteratorFromInputElement rt ctx input_element
      thread_index cf pfx out_iterator mgr).2.trace) :
    ∃ (t : Tensor) (hd : t.dtype = DT_RESOURCE)
        (hs : TensorShapeUtils.IsScalar t.shape = true) (d : DatasetBase)
        (pre post : List Event),
      (run_outcome rt ctx input_element cf mgr).result = Except.ok [t] ∧
      c = (t.scalar_ResourceHandle hd hs).container ∧
      n = (t.scalar_ResourceHandle hd hs).name ∧
      (MakeIteratorFromInputElement rt ctx input_element thread_index cf pfx out_iterator
        mgr).2.trace =
          pre ++ [Event.Lookup c n (Except.ok d),
            Event.MakeIterator (iterator_label pfx thread_index),
            Event.Delete c n res, Event.Unref] ++ post ∧
      (∀ e ∈ pre, e.isLookup = false ∧ e.isMakeIterator = false ∧ e.isDelete = false) ∧
      (∀ e ∈ post, e.isCleanup = true) ∧
      ((MakeIteratorFromInputElement rt ctx input_element thread_index cf pfx out_iterator
        mgr).2.trace.filter Event.isDelete).length = 1 ∧
      (MakeIteratorFromInputElement rt ctx input_element thread_index cf pfx out_iterator
        mgr).2.out_iterator = some (d.MakeIterator (iterator_label pfx thread_index)) ∧
      (MakeIteratorFromInputElement rt ctx input_element thread_index cf pfx out_iterator
        mgr).1 = res := by
  rcases run_cases rt ctx input_element thread_index cf pfx out_iterator mgr with
    ⟨f, hrun, hM⟩ | ⟨rv, acc, hrun, _, hacc, hM⟩ | ⟨t, hd, hs, hrun, _, hM⟩ |
    ⟨t, hd, hs, f, m, hrun, _, _, hM⟩ | ⟨t, hd, hs, d, m, hrun, _, _, hM⟩
  · exfalso
    rw [hM] at hdel
    simp only [List.mem_append, List.mem_singleton] at hdel
    rcases hdel with h | h
    · exact Event.noConfusion h
    · simpa [Event.isDelete] using (teardown_events_classes _ _ _ _ h).2.2.2.1
  · exfalso
    rw [hM] at hdel
    simp only [List.mem_append, List.mem_singleton] at hdel
    rcases hdel with (h | h) | h
    · exact Event.noConfusion h
    · exact Event.noConfusion (hacc _ h).1
    · simpa [Event.isDelete] using (teardown_events_classes _ _ _ _ h).2.2.2.1
  · exfalso
    rw [hM] at hdel
    simp only [List.mem_append, List.mem_cons, List.mem_singleton, List.not_mem_nil,
      or_false] at hdel
    rcases hdel with (h | h | h | h) | h
    · exact Event.noConfusion h
    · exact Event.noConfusion h
    · exact Event.noConfusion h
    · exact Event.noConfusion h
    · simpa [Event.isDelete] using (teardown_events_classes _ _ _ _ h).2.2.2.1
  · exfalso
    rw [hM] at hdel
    simp only [List.mem_append, List.mem_cons, List.mem_singleton, List.not_mem_nil,
      or_false] at hdel
    rcases hdel with (h | h | h | h | h) | h
    · exact Event.noConfusion h
    · exact Event.noConfusion h
    · exact Event.noConfusion h
    · exact Event.noConfusion h
    · exact Event.noConfusion h
    · simpa [Event.isDelete] using (teardown_events_classes _ _ _ _ h).2.2.2.1
  · rw [hM] at hdel ⊢
    have hkey : c = (t.scalar_ResourceHandle hd hs).container ∧
        n = (t.scalar_ResourceHandle hd hs).name ∧
        res = (cf.resource_manager.Delete (t.scalar_ResourceHandle hd hs).container
          (t.scalar_ResourceHandle hd hs).name m).1 := by
      simp only [List.mem_append, List.mem_cons, List.mem_singleton, List.not_mem_nil,
        or_false] at hdel
      rcases hdel with (h | h | h | h | h | h | h | h) | h
      · exact Event.noConfusion h
      · exact Event.noConfusion h
      · exact Event.noConfusion h
      · exact Event.noConfusion h
      · exact Event.noConfusion h
      · exact Event.noConfusion h
      · injection h with h1 h2 h3
        exact ⟨h1, h2, h3⟩
      · exact Event.noConfusion h
      · exfalso
        simpa [Event.isDelete] using (teardown_events_classes _ _ _ _ h).2.2.2.1
    obtain ⟨hc, hn, hres⟩ := hkey
    refine ⟨t, hd, hs, d,
      [Event.Run (run_options rt ctx) (Except.ok [t]), Event.Access 0, Event.Access 0,
        Event.Access 0],
      teardown_events cf.resource_manager (step_names rt ctx input_element cf mgr)
        (cf.resource_manager.Delete (t.scalar_ResourceHandle hd hs).container
          (t.scalar_ResourceHandle hd hs).name m).2,
      hrun, hc, hn, ?_, ?_, teardown_events_isCleanup _ _ _, ?_, rfl, hres.symm⟩
    · rw [hc, hn, hres]
      simp
    · intro e he
      simp only [List.mem_cons, List.mem_singleton, List.not_mem_nil, or_false] at he
      rcases he with he | he | he | he <;> (subst he; exact ⟨rfl, rfl, rfl⟩)
    · simp [List.filter_append, teardown_events_filter_isDelete, List.filter, Event.isDelete]

/-- Witness for C9: the lookup succeeds and the delete reports not-found. -/
theorem C9_delete_timing_witness :
    Event.Delete "c" "ds1" (Status.error (Registry.not_found "c" "ds1")) ∈
      (MakeIteratorFromInputElement scenario_rt scenario_ctx [Tensor.of_int64 42] 3
        (returning [Tensor.of_handle scenario_handle] ["tmp"] delete_fails_resource_manager)
        "p" none ()).2.trace ∧
    ∃ (t : Tensor) (hd : t.dtype = DT_RESOURCE)
        (hs : TensorShapeUtils.IsScalar t.shape = true) (d : DatasetBase)
        (pre post : List Event),
      (run_outcome scenario_rt scenario_ctx [Tensor.of_int64 42]
        (returning [Tensor.of_handle scenario_handle] ["tmp"] delete_fails_resource_manager)
        ()).result = Except.ok [t] ∧
      "c" = (t.scalar_ResourceHandle hd hs).container ∧
      "ds1" = (t.scalar_ResourceHandle hd hs).name ∧
      (MakeIteratorFromInputElement scenario_rt scenario_ctx [Tensor.of_int64 42] 3
        (returning [Tensor.of_handle scenario_handle] ["tmp"] delete_fails_resource_manager)
        "p" none ()).2.trace =
          pre ++ [Event.Lookup "c" "ds1" (Except.ok d),
            Event.MakeIterator (iterator_label "p" 3),
            Event.Delete "c" "ds1" (Status.error (Registry.not_found "c" "ds1")),
            Event.Unref] ++ post ∧
      (∀ e ∈ pre, e.isLookup = false ∧ e.isMakeIterator = false ∧ e.isDelete = false) ∧
      (∀ e ∈ post, e.isCleanup = true) ∧
      ((MakeIteratorFromInputElement scenario_rt scenario_ctx [Tensor.of_int64 42] 3
        (returning [Tensor.of_handle scenario_handle] ["tmp"] delete_fails_resource_manager)
        "p" none ()).2.trace.filter Event.isDelete).length = 1 ∧
      (MakeIteratorFromInputElement scenario_rt scenario_ctx [Tensor.of_int64 42] 3
        (returning [Tensor.of_handle scenario_handle] ["tmp"] delete_fails_resource_manager)
        "p" none ()).2.out_iterator = some (d.MakeIterator (iterator_label "p" 3)) ∧
      (MakeIteratorFromInputElement scenario_rt scenario_ctx [Tensor.of_int64 42] 3
        (returning [Tensor.of_handle scenario_handle] ["tmp"] delete_fails_resource_manager)
        "p" none ()).1 = Status.error (Registry.not_found "c" "ds1") :=
  ⟨List.Mem.tail _ (List.Mem.tail _ (List.Mem.tail _ (List.Mem.tail _ (List.Mem.tail _
      (List.Mem.tail _ (List.Mem.head _)))))),
    C9_delete_timing scenario_rt scenario_ctx [Tensor.of_int64 42] 3
      (returning [Tensor.of_handle scenario_handle] ["tmp"] delete_fails_resource_manager)
      "p" none () "c" "ds1" (Status.error (Registry.not_found "c" "ds1"))
      (List.Mem.tail _ (List.Mem.tail _ (List.Mem.tail _ (List.Mem.tail _ (List.Mem.tail _
        (List.Mem.tail _ (List.Mem.head _)))))))⟩

/-- C10: replacing the `Cleanup` of the resource manager by any other one, with
other outcomes and effects, changes neither the returned status, nor the
content of the output slot, nor the events other than the cleanup calls, nor
the names cleaned up. -/
theorem C10_cleanup_failures_swallowed (cleanup2 : String → σ → Status × σ) :
    (MakeIteratorFromInputElement rt ctx input_element thread_index
        ⟨cf.Run, ⟨cf.resource_manager.Lookup, cf.resource_manager.Delete, cleanup2⟩⟩ pfx
        out_iterator mgr).1 =
      (MakeIteratorFromInputElement rt ctx input_element thread_index cf pfx out_iterator
        mgr).1 ∧
    (MakeIteratorFromInputElement rt ctx input_element thread_index
        ⟨cf.Run, ⟨cf.resource_manager.Lookup, cf.resource_manager.Delete, cleanup2⟩⟩ pfx
        out_iterator mgr).2.out_iterator =
      (MakeIteratorFromInputElement rt ctx input_element thread_index cf pfx out_iterator
        mgr).2.out_iterator ∧
    (MakeIteratorFromInputElement rt ctx input_element thread_index
        ⟨cf.Run, ⟨cf.resource_manager.Lookup, cf.resource_manager.Delete, cleanup2⟩⟩ pfx
        out_iterator mgr).2.trace.filter (fun e => !e.isCleanup) =
      (MakeIteratorFromInputElement rt ctx input_element thread_index cf pfx out_iterator
        mgr).2.trace.filter (fun e => !e.isCleanup) ∧
    cleanup_names (MakeIteratorFromInputElement rt ctx input_element thread_index
        ⟨cf.Run, ⟨cf.resource_manager.Lookup, cf.resource_manager.Delete, cleanup2⟩⟩ pfx
        out_iterator mgr).2.trace =
      cleanup_names (MakeIteratorFromInputElement rt ctx input_element thread_index cf pfx
        out_iterator mgr).2.trace := by
  refine ⟨rfl, ?_, ?_, ?_⟩
  · simp only [MakeIteratorFromInputElement, destroy_eq]
    rfl
  · simp only [MakeIteratorFromInputElement, destroy_eq, List.filter_append,
      filter_not_isCleanup_teardown, List.append_nil]
    rfl
  · simp only [MakeIteratorFromInputElement, destroy_eq, cleanup_names_append,
      cleanup_names_teardown_events]
    rfl

/-- C3: over the keyed registry, when the function returns a single scalar
resource handle with the dataset type tag that names a live entry of the
registry, the operation returns success, the registry Delete for the key of
the handle succeeded, the output slot holds the iterator made by the looked-up
dataset, and a lookup of that key in the final registry returns not-found. -/
theorem C3_ownership_handoff (run : FunctionLibraryRuntimeOptions → List Tensor → Registry →
      RunOutcome Registry) (reg : Registry) (t : Tensor) (hd : t.dtype = DT_RESOURCE)
    (hs : TensorShapeUtils.IsScalar t.shape = true) (d : DatasetBase)
    (hrun : (run (run_options rt ctx) input_element reg).result = Except.ok [t])
    (htag : (t.scalar_ResourceHandle hd hs).hash_code = rt.dataset_hash_code)
    (hlive : Registry.Lookup rt.dataset_hash_code (t.scalar_ResourceHandle hd hs).container
      (t.scalar_ResourceHandle hd hs).name (run (run_options rt ctx) input_element reg).mgr =
        Except.ok d) :
    (MakeIteratorFromInputElement rt ctx input_element thread_index
        ⟨run, Registry.resource_manager rt.dataset_hash_code⟩ pfx out_iterator reg).1 =
      Status.OK ∧
    Event.Delete (t.scalar_ResourceHandle hd hs).container (t.scalar_ResourceHandle hd hs).name
        Status.OK ∈ (MakeIteratorFromInputElement rt ctx input_element thread_index
          ⟨run, Registry.resource_manager rt.dataset_hash_code⟩ pfx out_iterator reg).2.trace ∧
    (MakeIteratorFromInputElement rt ctx input_element thread_index
        ⟨run, Registry.resource_manager rt.dataset_hash_code⟩ pfx out_iterator
        reg).2.out_iterator = some (d.MakeIterator (iterator_label pfx thread_index)) ∧
    Registry.Lookup rt.dataset_hash_code (t.scalar_ResourceHandle hd hs).container
        (t.scalar_ResourceHandle hd hs).name
        (MakeIteratorFromInputElement rt ctx input_element thread_index
          ⟨run, Registry.resource_manager rt.dataset_hash_code⟩ pfx out_iterator reg).2.mgr =
      Except.error (Registry.not_found (t.scalar_ResourceHandle hd hs).container
        (t.scalar_ResourceHandle hd hs).name) := by
  have hM := path_valid rt ctx input_element thread_index
    ⟨run, Registry.resource_manager rt.dataset_hash_code⟩ pfx out_iterator reg t hd hs hrun
  have hl : (Registry.resource_manager rt.dataset_hash_code).Lookup
      (t.scalar_ResourceHandle hd hs).container (t.scalar_ResourceHandle hd hs).name
      (run (run_options rt ctx) input_element reg).mgr =
        (Except.ok d, (run (run_options rt ctx) input_element reg).mgr) := by
    simp only [Registry.resource_manager, hlive]
  have hdel : (Registry.resource_manager rt.dataset_hash_code).Delete
      (t.scalar_ResourceHandle hd hs).container (t.scalar_ResourceHandle hd hs).name
      (run (run_options rt ctx) input_element reg).mgr =
        (Status.OK, (run (run_options rt ctx) input_element reg).mgr.filter
          (fun e => !e.is_entry rt.dataset_hash_code (t.scalar_ResourceHandle hd hs).container
            (t.scalar_ResourceHandle hd hs).name)) := by
    simp only [Registry.resource_manager, Registry.Delete,
      Registry.Lookup_ok_any _ _ _ _ d hlive, if_true]
  rw [handoff_lookup_ok rt thread_index ⟨run, Registry.resource_manager rt.dataset_hash_code⟩
    pfx _ _ d _ htag.symm hl] at hM
  simp only [hdel] at hM
  rw [hM]
  refine ⟨rfl, by simp, rfl, ?_⟩
  exact Registry.teardown_not_found _ _ _ _ _ (Registry.Lookup_after_Delete _ _ _ _)

/-- Witness for C3: input element [42]; the function creates the dataset under
(container "c", name "ds1") in the empty registry and returns its handle. -/
theorem C3_ownership_handoff_witness :
    (scenario_function.Run (run_options scenario_rt scenario_ctx) [Tensor.of_int64 42]
        []).result = Except.ok [Tensor.of_handle scenario_handle] ∧
    ((Tensor.of_handle scenario_handle).scalar_ResourceHandle rfl rfl).hash_code =
      scenario_rt.dataset_hash_code ∧
    Registry.Lookup scenario_rt.dataset_hash_code
      ((Tensor.of_handle scenario_handle).scalar_ResourceHandle rfl rfl).container
      ((Tensor.of_handle scenario_handle).scalar_ResourceHandle rfl rfl).name
      (scenario_function.Run (run_options scenario_rt scenario_ctx) [Tensor.of_int64 42]
        []).mgr = Except.ok scenario_dataset ∧
    ((MakeIteratorFromInputElement scenario_rt scenario_ctx [Tensor.of_int64 42] 0
        ⟨scenario_function.Run, Registry.resource_manager scenario_rt.dataset_hash_code⟩ "p"
        none []).1 = Status.OK ∧
    Event.Delete ((Tensor.of_handle scenario_handle).scalar_ResourceHandle rfl rfl).container
        ((Tensor.of_handle scenario_handle).scalar_ResourceHandle rfl rfl).name
        Status.OK ∈ (MakeIteratorFromInputElement scenario_rt scenario_ctx
          [Tensor.of_int64 42] 0
          ⟨scenario_function.Run, Registry.resource_manager scenario_rt.dataset_hash_code⟩
          "p" none []).2.trace ∧
    (MakeIteratorFromInputElement scenario_rt scenario_ctx [Tensor.of_int64 42] 0
        ⟨scenario_function.Run, Registry.resource_manager scenario_rt.dataset_hash_code⟩ "p"
        none []).2.out_iterator =
      some (scenario_dataset.MakeIterator (iterator_label "p" 0)) ∧
    Registry.Lookup scenario_rt.dataset_hash_code
        ((Tensor.of_handle scenario_handle).scalar_ResourceHandle rfl rfl).container
        ((Tensor.of_handle scenario_handle).scalar_ResourceHandle rfl rfl).name
        (MakeIteratorFromInputElement scenario_rt scenario_ctx [Tensor.of_int64 42] 0
          ⟨scenario_function.Run, Registry.resource_manager scenario_rt.dataset_hash_code⟩
          "p" none []).2.mgr =
      Except.error (Registry.not_found
        ((Tensor.of_handle scenario_handle).scalar_ResourceHandle rfl rfl).container
        ((Tensor.of_handle scenario_handle).scalar_ResourceHandle rfl rfl).name)) :=
  ⟨rfl, rfl, rfl,
    C3_ownership_handoff scenario_rt scenario_ctx [Tensor.of_int64 42] 0 "p" none
      scenario_function.Run [] (Tensor.of_handle scenario_handle) rfl rfl scenario_dataset
      rfl rfl rfl⟩

theorem label_of_MakeIterator_mem (l : String)
    (h : Event.MakeIterator l ∈ (MakeIteratorFromInputElement rt ctx input_element
      thread_index cf pfx out_iterator mgr).2.trace) :
    l = iterator_label pfx thread_index := by
  rcases run_cases rt ctx input_element thread_index cf pfx out_iterator mgr with
    ⟨f, _, hM⟩ | ⟨rv, acc, _, _, hacc, hM⟩ | ⟨t, hd, hs, _, _, hM⟩ |
    ⟨t, hd, hs, f, m, _, _, _, hM⟩ | ⟨t, hd, hs, d, m, _, _, _, hM⟩
  all_goals rw [hM] at h
  all_goals simp only [List.mem_append, List.mem_cons, List.mem_singleton, List.not_mem_nil,
    or_false] at h
  · rcases h with h | h
    · exact Event.noConfusion h
    · exact absurd (teardown_events_classes _ _ _ _ h).2.2.2.2.1 (by simp [Event.isMakeIterator])
  · rcases h with (h | h) | h
    · exact Event.noConfusion h
    · exact Event.noConfusion (hacc _ h).1
    · exact absurd (teardown_events_classes _ _ _ _ h).2.2.2.2.1 (by simp [Event.isMakeIterator])
  · rcases h with (h | h | h | h) | h
    · exact Event.noConfusion h
    · exact Event.noConfusion h
    · exact Event.noConfusion h
    · exact Event.noConfusion h
    · exact absurd (teardown_events_classes _ _ _ _ h).2.2.2.2.1 (by simp [Event.isMakeIterator])
  · rcases h with (h | h | h | h | h) | h
    · exact Event.noConfusion h
    · exact Event.noConfusion h
    · exact Event.noConfusion h
    · exact Event.noConfusion h
    · exact Event.noConfusion h
    · exact absurd (teardown_events_classes _ _ _ _ h).2.2.2.2.1 (by simp [Event.isMakeIterator])
  · rcases h with (h | h | h | h | h | h | h | h) | h
    · exact Event.noConfusion h
    · exact Event.noConfusion h
    · exact Event.noConfusion h
    · exact Event.noConfusion h
    · exact Event.noConfusion h
    · injection h
    · exact Event.noConfusion h
    · exact Event.noConfusion h
    · exact absurd (teardown_events_classes _ _ _ _ h).2.2.2.2.1 (by simp [Event.isMakeIterator])

end claims

/-- C6: the label passed to the dataset's `MakeIterator` in a run is the
caller-supplied label start followed by "[", the decimal rendering of the
thread index and "]" (the digits rendered denote the absolute value of the
index); two runs with the same label start and different thread indices pass
different labels. -/
theorem C6_labels_distinct {σ1 σ2 : Type} (rt1 rt2 : Runtime) (ctx1 ctx2 : IteratorContext)
    (input1 input2 : List Tensor) (cf1 : CapturedFunction σ1) (cf2 : CapturedFunction σ2)
    (out1 out2 : Option IteratorBase) (mgr1 : σ1) (mgr2 : σ2) (pfx : String) (i j : Int)
    (l1 l2 : String) (hij : i ≠ j)
    (h1 : Event.MakeIterator l1 ∈
      (MakeIteratorFromInputElement rt1 ctx1 input1 i cf1 pfx out1 mgr1).2.trace)
    (h2 : Event.MakeIterator l2 ∈
      (MakeIteratorFromInputElement rt2 ctx2 input2 j cf2 pfx out2 mgr2).2.trace) :
    l1 = pfx ++ "[" ++ String.mk (AlphaNum.render (AlphaNum.int64 i)) ++ "]" ∧
    l2 = pfx ++ "[" ++ String.mk (AlphaNum.render (AlphaNum.int64 j)) ++ "]" ∧
    decimal_value (decimal_digits i.natAbs) = i.natAbs ∧
    l1 ≠ l2 := by
  have e1 := label_of_MakeIterator_mem rt1 ctx1 input1 i cf1 pfx out1 mgr1 l1 h1
  have e2 := label_of_MakeIterator_mem rt2 ctx2 input2 j cf2 pfx out2 mgr2 l2 h2
  refine ⟨by rw [e1, iterator_label_eq], by rw [e2, iterator_label_eq],
    decimal_value_decimal_digits _, ?_⟩
  rw [e1, e2]
  exact fun h => hij (iterator_label_injective pfx i j h)

/-- Witness for C6: label start "p" with thread indices 0 and 1 gives the
labels "p[0]" and "p[1]". -/
theorem C6_labels_distinct_witness :
    (0 : Int) ≠ 1 ∧
    Event.MakeIterator "p[0]" ∈ (MakeIteratorFromInputElement scenario_rt scenario_ctx
      [Tensor.of_int64 42] 0 scenario_function "p" none []).2.trace ∧
    Event.MakeIterator "p[1]" ∈ (MakeIteratorFromInputElement scenario_rt scenario_ctx
      [Tensor.of_int64 42] 1 scenario_function "p" none []).2.trace ∧
    ("p[0]" = "p" ++ "[" ++ String.mk (AlphaNum.render (AlphaNum.int64 0)) ++ "]" ∧
    "p[1]" = "p" ++ "[" ++ String.mk (AlphaNum.render (AlphaNum.int64 1)) ++ "]" ∧
    decimal_value (decimal_digits (0 : Int).natAbs) = (0 : Int).natAbs ∧
    "p[0]" ≠ "p[1]") :=
  ⟨by decide,
    by simp [MakeIteratorFromInputElement, MakeIteratorFromInputElement.handoff,
      scenario_function, scenario_rt, scenario_handle, Tensor.of_handle,
      Tensor.scalar_ResourceHandle, DT_RESOURCE, TensorShapeUtils.IsScalar, destroy_eq,
      Registry.resource_manager, Registry.Lookup, Registry.Delete, Registry.Create,
      RegistryEntry.is_entry,
      iterator_label, strings.StrCat, AlphaNum.render, decimal_digits, Nat.digitChar],
    by simp [MakeIteratorFromInputElement, MakeIteratorFromInputElement.handoff,
      scenario_function, scenario_rt, scenario_handle, Tensor.of_handle,
      Tensor.scalar_ResourceHandle, DT_RESOURCE, TensorShapeUtils.IsScalar, destroy_eq,
      Registry.resource_manager, Registry.Lookup, Registry.Delete, Registry.Create,
      RegistryEntry.is_entry,
      iterator_label, strings.StrCat, AlphaNum.render, decimal_digits, Nat.digitChar],
    C6_labels_distinct scenario_rt scenario_rt scenario_ctx scenario_ctx [Tensor.of_int64 42]
      [Tensor.of_int64 42] scenario_function scenario_function none none [] [] "p" 0 1
      "p[0]" "p[1]" (by decide)
      (by simp [MakeIteratorFromInputElement, MakeIteratorFromInputElement.handoff,
        scenario_function, scenario_rt, scenario_handle, Tensor.of_handle,
        Tensor.scalar_ResourceHandle, DT_RESOURCE, TensorShapeUtils.IsScalar, destroy_eq,
        Registry.resource_manager, Registry.Lookup, Registry.Delete, Registry.Create,
      RegistryEntry.is_entry,
        iterator_label, strings.StrCat, AlphaNum.render, decimal_digits, Nat.digitChar])
      (by simp [MakeIteratorFromInputElement, MakeIteratorFromInputElement.handoff,
        scenario_function, scenario_rt, scenario_handle, Tensor.of_handle,
        Tensor.scalar_ResourceHandle, DT_RESOURCE, TensorShapeUtils.IsScalar, destroy_eq,
        Registry.resource_manager, Registry.Lookup, Registry.Delete, Registry.Create,
      RegistryEntry.is_entry,
        iterator_label, strings.StrCat, AlphaNum.render, decimal_digits, Nat.digitChar])⟩

end tensorflow
